import Mathlib

/-!
Verification development for the tokenization engine of the renpy-text-editor
repository (`RTE/syntaxhighlight/lexer.py`).

The repository defines four lexers on top of the Pygments lexing framework:
`RenpyBlockLexer`, `RenpyLexer`, `RenpyConsoleLexer` and `RenpyTracebackLexer`.
This file gives a shallow embedding of these lexers:

* texts are lists of characters (`Txt`), tokens are `(offset, kind, text)`
  triples (`Tk`);
* each regular-expression rule of the source is hand-translated into a matcher
  function on `Txt` implementing the behaviour of the Python `re` pattern
  anchored at a position (first-match rule selection, greedy/backtracking
  behaviour where it is observable, `re.MULTILINE` anchors);
* the generic Pygments state-stack executor `RegexLexer.get_tokens_unprocessed`
  (the library superclass of the source's lexers) is translated as `runFrom`,
  including its special no-match branch: an unmatched newline resets the state
  stack to the root state and yields a `Text` token, any other unmatched
  character yields a one-character `Error` token;
* the console dispatcher `RenpyConsoleLexer.get_tokens_unprocessed` and the
  Pygments merger `do_insertions` it calls are translated line by line.
-/

set_option linter.unusedVariables false

/-- Token kinds used by the lexers of the source (a flat rendering of the
Pygments hierarchical token types that actually occur in the rule tables). -/
inductive Tok where
  | text
  | error
  | other
  | keyword
  | keywordNamespace
  | operatorWord
  | operator
  | punctuation
  | name
  | nameFunction
  | nameFunctionMagic
  | nameClass
  | nameNamespace
  | nameBuiltin
  | nameBuiltinPseudo
  | nameException
  | nameVariableMagic
  | nameDecorator
  | stringDouble
  | stringSingle
  | stringAffix
  | stringDoc
  | stringEscape
  | stringInterpol
  | stringSymbol
  | stringBacktick
  | numberFloat
  | numberOct
  | numberBin
  | numberHex
  | numberIntegerLong
  | numberInteger
  | number
  | commentHashbang
  | commentSingle
  | comment
  | genericPrompt
  | genericOutput
  | genericTraceback
  | genericError
  | renpyPythonInline
  | renpyFunctionBuiltin
  | renpyFunctionArguments
  | renpyReserved
  | renpyDeclaration
  | renpyLabelReserved
  | renpyScreenDisplayables
  | renpyScreenActions
  | blockStart
  | blockEnd
  deriving DecidableEq, Repr

/-- Names of the lexer states appearing in the rule tables of the source.
`imp` renders the source state name `'import'` (a reserved word in Lean);
`cdqs`, `csqs`, `ctdqs`, `ctsqs` render the anonymous states produced by
`combined('stringescape', 'dqs')` etc., which Pygments materializes as fresh
states whose rule list is the concatenation of the combined states' rules. -/
inductive SName where
  | root
  | funcname
  | classname
  | imp
  | fromimport
  | dqs
  | sqs
  | tdqs
  | tsqs
  | cdqs
  | csqs
  | ctdqs
  | ctsqs
  | intb
  deriving DecidableEq, Repr

abbrev Txt := List Char

/-- A token: absolute offset, kind, and the covered text. -/
abbrev Tk := Nat × Tok × Txt

/-- Result of matching one rule at a position: the emitted tokens and the end
position of the match (the new cursor). -/
structure RMatch where
  toks : List Tk
  stop : Nat
  deriving Repr

/-- State-stack effect of a rule (the source tables only use staying put,
pushing one state, and `'#pop'`). -/
inductive SChange where
  | stay
  | push (s : SName)
  | pop
  deriving DecidableEq, Repr

/-- A compiled rule: a matcher (anchored at a position, `none` when the
pattern does not match there) plus a state-stack effect. -/
structure Rule where
  mt : Txt → Nat → Option RMatch
  sc : SChange

/-! ## Character classes and low-level scanning helpers -/

/-- Python `\w` on the ASCII inputs at hand: letters, digits, underscore. -/
def isWordChar (c : Char) : Bool := c.isAlphanum || c = '_'

/-- Python `\s`: the whitespace characters recognized by `re`. -/
def wsChar (c : Char) : Bool :=
  c = ' ' || c = '\t' || c = '\n' || c = '\r' || c = '\x0b' || c = '\x0c'

/-- First char of `[a-zA-Z_]\w*`. -/
def isIdentStart (c : Char) : Bool := c.isAlpha || c = '_'

/-- Is the character at `q` (if any) a word character?  Out of range counts
as "no". -/
def wAt (t : Txt) (q : Nat) : Bool := isWordChar (t.getD q ' ')

/-- Python `\b` at position `q` of `t`: exactly one of the two neighbouring
characters is a word character (a missing neighbour is not one). -/
def bAt (t : Txt) (q : Nat) : Bool :=
  (decide (0 < q) && wAt t (q - 1)) != wAt t q

/-- `re.MULTILINE` `^`: start of text or just after a newline. -/
def atLS (t : Txt) (p : Nat) : Bool :=
  decide (p = 0) || decide (t.getD (p - 1) 'x' = '\n')

/-- Length of the maximal run of characters satisfying `f`. -/
def runLen (f : Char → Bool) : Txt → Nat
  | [] => 0
  | c :: cs => if f c then runLen f cs + 1 else 0

/-- Length of the maximal run of characters satisfying `f` starting at `p`. -/
def runLenAt (f : Char → Bool) (t : Txt) (p : Nat) : Nat := runLen f (t.drop p)

/-- The slice of `t` from `p` (inclusive) to `e` (exclusive). -/
def seg (t : Txt) (p e : Nat) : Txt := (t.drop p).take (e - p)

/-- Does the literal word `w` occur at position `p` of `t`? -/
def litAt (t : Txt) (p : Nat) (w : Txt) : Bool :=
  decide ((t.drop p).take w.length = w)

/-! ## Word-list rules

Pygments compiles a `words(ws, prefix, suffix)` rule with `regex_opt`: the
word list is arranged into a single backtracking alternation (a trie over the
sorted words).  Observably, with a `\b` suffix this matches the longest word
of the list that literally occurs at the position and whose end satisfies the
boundary; distinct words that both occur at a position form a prefix chain,
and the trie tries the longer one first, backtracking to the shorter on a
failed boundary. -/

/-- Does word `w` match at `p` with its `\b` suffix satisfied? -/
def okW (t : Txt) (p : Nat) (w : Txt) : Bool :=
  litAt t p w && bAt t (p + w.length)

/-- The word of `ws` selected by the compiled `words(...)` alternation at
`p` of `t` (longest word matching with its boundary), if any. -/
def wordsAt (ws : List Txt) (t : Txt) (p : Nat) : Option Txt :=
  match ws with
  | [] => none
  | w :: rest =>
    match wordsAt rest t p with
    | none => if okW t p w then some w else none
    | some w' => if okW t p w && decide (w'.length < w.length) then some w else some w'

/-- A plain regex alternation `(w1|w2|...)\b` (written out in the source, not
via `words(...)`): alternatives are tried in written order, each with the
trailing boundary.  The lists this is used for are prefix-free, so at most
one alternative can match. -/
def altAt (ws : List Txt) (t : Txt) (p : Nat) : Option Txt :=
  match ws with
  | [] => none
  | w :: rest => if okW t p w then some w else altAt rest t p

/-! ## Rule constructors -/

/-- A rule that, from a span function giving the end of the pattern match,
emits a single token of kind `k` covering the whole match. -/
def mk1 (f : Txt → Nat → Option Nat) (k : Tok) (sc : SChange) : Rule where
  mt t p :=
    match f t p with
    | some e => some ⟨[(p, k, seg t p e)], e⟩
    | none => none
  sc := sc

/-- A `bygroups(...)` rule: the matcher computes the group tokens and the
match end directly. -/
def mkG (g : Txt → Nat → Option (List Tk × Nat)) (sc : SChange) : Rule where
  mt t p := (g t p).map fun pr => ⟨pr.1, pr.2⟩
  sc := sc

/-- Pygments `default(state)`: a rule matching the empty string, emitting
nothing, and performing only a state transition. -/
def mkDefault (sc : SChange) : Rule where
  mt _ p := some ⟨[], p⟩
  sc := sc

/-- `bygroups` skips capture groups whose text is empty (or missing). -/
def gtoks (l : List Tk) : List Tk := l.filter fun x => !x.2.2.isEmpty

/-! ## The Pygments state-stack executor

Translation of `pygments.lexer.RegexLexer.get_tokens_unprocessed`: at each
step the rules of the top-of-stack state are tried in declared order; the
first match emits its tokens, moves the cursor to the match end, and applies
the state transition.  If no rule matches: an unmatched newline resets the
stack to the root state and is emitted as `Text`, any other character is
emitted as a one-character `Error` token, and the cursor advances by one.
(`'#pop'` keeps at least one state on the stack.)  The Python generator's
unbounded loop is rendered with a fuel parameter; every theorem below either
quantifies over the fuel or uses an explicitly sufficient fuel. -/

def applySC : SChange → List SName → List SName
  | .stay, st => st
  | .push s, st => s :: st
  | .pop, st => if 1 < st.length then st.tail else st

/-- First rule of the list whose pattern matches at `p` (first-match, not
longest-match, semantics). -/
def firstRule (rs : List Rule) (t : Txt) (p : Nat) : Option (RMatch × SChange) :=
  match rs with
  | [] => none
  | r :: rest =>
    match r.mt t p with
    | some m => some (m, r.sc)
    | none => firstRule rest t p

def runFrom (tbl : SName → List Rule) (rootS : SName) (t : Txt) :
    Nat → List SName → Nat → List Tk
  | 0, _, _ => []
  | fuel + 1, stack, p =>
    if h : p < t.length then
      match firstRule (tbl (stack.headD rootS)) t p with
      | some (m, sc) => m.toks ++ runFrom tbl rootS t fuel (applySC sc stack) m.stop
      | none =>
        if t.get ⟨p, h⟩ = '\n' then
          (p, Tok.text, ['\n']) :: runFrom tbl rootS t fuel [rootS] (p + 1)
        else
          (p, Tok.error, [t.get ⟨p, h⟩]) :: runFrom tbl rootS t fuel stack (p + 1)
    else []

/-! ## Word lists of the source rule tables (order as in the source) -/

/-- `RenpyLexer.tokens['keywords']`, first `words(...)` list. -/
def kwWords : List Txt :=
  (["assert", "break", "continue", "del", "elif", "else", "except",
    "exec", "finally", "for", "global", "if", "lambda", "pass",
    "print", "raise", "return", "try", "while", "yield",
    "yield from", "as", "with"] : List String).map String.data

/-- `RenpyLexer.tokens['keywords']`, second `words(...)` list (`Renpy.Reserved`). -/
def rsvWords : List Txt :=
  (["audio", "scene", "expression", "play", "queue", "stop",
    "python", "init", "pause", "jump", "call", "zorder",
    "show", "hide", "at", "music", "sound", "voice"] : List String).map String.data

/-- `RenpyLexer.tokens['keywords']`, third `words(...)` list (`Renpy.Declaration`). -/
def declWords : List Txt :=
  (["default", "define", "layeredimage", "screen", "transform",
    "label", "menu", "style", "image"] : List String).map String.data

/-- `RenpyLexer.tokens['special_labels']` word list (prefix `label `). -/
def specialWords : List Txt :=
  (["start", "quit", "after_load", "splashscreen",
    "before_main_menu", "main_menu", "after_warp"] : List String).map String.data

/-- `RenpyLexer.tokens['screen_lang']` word list (prefix `\s+`). -/
def screenLangWords : List Txt :=
  (["add", "bar", "button", "fixed", "frame", "grid",
    "hbox", "imagebutton", "input", "key",
    "mousearea", "null", "side", "text", "textbutton",
    "timer", "vbar", "vbox", "viewport",
    "vpgrid", "window", "imagemap", "hotspot",
    "hotbar", "drag", "draggroup", "has", "on", "use",
    "transclude", "transform", "label"] : List String).map String.data

/-- `RenpyLexer.tokens['screen_actions']` word list (prefix `' '`). -/
def screenActionWords : List Txt :=
  (["Call", "Hide", "Jump", "NullAction", "Return", "Show",
    "ShowTransient", "ToggleScreen", "AddToSet", "RemoveFromSet",
    "SetDict", "SetField", "SetLocalVariable", "SetScreenVariable",
    "SetVariable", "ToggleDict", "ToggleField", "ToggleLocalVariable",
    "ToggleScreenVariable", "ToggleSetMembership", "ToggleVariable",
    "MainMenu", "Quit", "ShowMenu", "Start", "FileAction",
    "FileDelete", "FileLoad", "FilePage", "FilePageNext",
    "FileSave", "FileTakeScreenshot", "QuickLoad",
    "QuickSave", "PauseAudio", "Play", "Queue", "SetMixer",
    "SetMute", "Stop", "ToggleMute", "Confirm", "DisableAllInputValues",
    "Function", "Help", "HideInterface", "If", "InvertSelected",
    "MouseMove", "Notify", "OpenURL", "QueueEvent", "RestartStatement",
    "RollForward", "Rollback", "RollbackToIdentifier",
    "Screenshot", "Scroll", "SelectedIf", "SensitiveIf", "Skip",
    "With", "AnimatedValue", "AudioPositionValue", "DictValue",
    "FieldValue", "MixerValue", "ScreenVariableValue", "StaticValue",
    "VariableValue", "XScrollValue", "YScrollValue", "DictInputValue",
    "FieldInputValue", "FilePageNameInputValue", "ScreenVariableInputValue",
    "VariableInputValue", "Preference", "GamepadCalibrate", "GamepadExists",
    "FileCurrentPage", "FileCurrentScreenshot", "FileJson", "FileLoadable",
    "FileNewest", "FilePageName", "FileSaveName", "FileScreenshot", "FileSlotName",
    "FileTime", "FileUsedSlot", "SideImage", "GetTooltip"] : List String).map String.data

/-- `RenpyLexer.tokens['builtins']`, first `words(...)` list (prefix `(?<!\.)`). -/
def builtinWords : List Txt :=
  (["__import__", "abs", "all", "any", "apply", "basestring", "bin",
    "bool", "buffer", "bytearray", "bytes", "callable", "chr", "classmethod",
    "cmp", "coerce", "compile", "complex", "delattr", "dict", "dir", "divmod",
    "enumerate", "eval", "execfile", "exit", "file", "filter", "float",
    "frozenset", "getattr", "globals", "hasattr", "hash", "hex", "id",
    "input", "int", "intern", "isinstance", "issubclass", "iter", "len",
    "list", "locals", "long", "map", "max", "min", "next", "object",
    "oct", "open", "ord", "pow", "property", "range", "raw_input", "reduce",
    "reload", "repr", "reversed", "round", "set", "setattr", "slice",
    "sorted", "staticmethod", "str", "sum", "super", "tuple", "type",
    "unichr", "unicode", "vars", "xrange", "zip"] : List String).map String.data

/-- `RenpyLexer.tokens['builtins']`, the alternation
`(?<!\.)(self|None|Ellipsis|NotImplemented|False|True|cls)\b`. -/
def pseudoWords : List Txt :=
  (["self", "None", "Ellipsis", "NotImplemented", "False", "True",
    "cls"] : List String).map String.data

/-- `RenpyLexer.tokens['builtins']`, third `words(...)` list
(`Name.Exception`, prefix `(?<!\.)`). -/
def exceptionWords : List Txt :=
  (["ArithmeticError", "AssertionError", "AttributeError",
    "BaseException", "DeprecationWarning", "EOFError", "EnvironmentError",
    "Exception", "FloatingPointError", "FutureWarning", "GeneratorExit",
    "IOError", "ImportError", "ImportWarning", "IndentationError",
    "IndexError", "KeyError", "KeyboardInterrupt", "LookupError",
    "MemoryError", "ModuleNotFoundError", "NameError", "NotImplemented", "NotImplementedError",
    "OSError", "OverflowError", "OverflowWarning", "PendingDeprecationWarning",
    "RecursionError", "ReferenceError", "RuntimeError", "RuntimeWarning", "StandardError",
    "StopIteration", "StopAsyncIteration", "SyntaxError", "SyntaxWarning", "SystemError",
    "SystemExit", "TabError", "TypeError", "UnboundLocalError",
    "UnicodeDecodeError", "UnicodeEncodeError", "UnicodeError",
    "UnicodeTranslateError", "UnicodeWarning", "UserWarning",
    "ValueError", "VMSError", "Warning", "WindowsError",
    "ZeroDivisionError"] : List String).map String.data

/-- `RenpyLexer.tokens['magicfuncs']` word list. -/
def magicFuncWords : List Txt :=
  (["__abs__", "__add__", "__and__", "__call__", "__cmp__", "__coerce__",
    "__complex__", "__contains__", "__del__", "__delattr__", "__delete__",
    "__delitem__", "__delslice__", "__div__", "__divmod__", "__enter__",
    "__eq__", "__exit__", "__float__", "__floordiv__", "__ge__", "__get__",
    "__getattr__", "__getattribute__", "__getitem__", "__getslice__", "__gt__",
    "__hash__", "__hex__", "__iadd__", "__iand__", "__idiv__", "__ifloordiv__",
    "__ilshift__", "__imod__", "__imul__", "__index__", "__init__",
    "__instancecheck__", "__int__", "__invert__", "__iop__", "__ior__",
    "__ipow__", "__irshift__", "__isub__", "__iter__", "__itruediv__",
    "__ixor__", "__le__", "__len__", "__long__", "__lshift__", "__lt__",
    "__missing__", "__mod__", "__mul__", "__ne__", "__neg__", "__new__",
    "__nonzero__", "__oct__", "__op__", "__or__", "__pos__", "__pow__",
    "__radd__", "__rand__", "__rcmp__", "__rdiv__", "__rdivmod__", "__repr__",
    "__reversed__", "__rfloordiv__", "__rlshift__", "__rmod__", "__rmul__",
    "__rop__", "__ror__", "__rpow__", "__rrshift__", "__rshift__", "__rsub__",
    "__rtruediv__", "__rxor__", "__set__", "__setattr__", "__setitem__",
    "__setslice__", "__str__", "__sub__", "__subclasscheck__", "__truediv__",
    "__unicode__", "__xor__"] : List String).map String.data

/-- `RenpyLexer.tokens['magicvars']` word list. -/
def magicVarWords : List Txt :=
  (["__bases__", "__class__", "__closure__", "__code__", "__defaults__",
    "__dict__", "__doc__", "__file__", "__func__", "__globals__",
    "__metaclass__", "__module__", "__mro__", "__name__", "__self__",
    "__slots__", "__weakref__"] : List String).map String.data

/-- `RenpyBlockLexer.tokens['root']`, first `words(...)` list (`Block.Start`). -/
def blockW1 : List Txt :=
  (["elif", "else", "except", "finally", "for", "if",
    "try", "while", "with", "label", "screen", "transform",
    "init", "layeredimage", "menu", "style"] : List String).map String.data

/-- `RenpyBlockLexer.tokens['root']`, second `words(...)` list (`Block.End`).
`words(...)` applies `re.escape` to each entry, so the entries match
literally (including the two-newline entry and the literal `# *endregion`). -/
def blockW2 : List Txt :=
  (["\n\n", "break", "continue", "return", "yield", "yield from",
    "pass", "# *endregion"] : List String).map String.data

/-- The alternation `(in|is|and|or|not)\b` of `RenpyLexer.tokens['root']`. -/
def opWordList : List Txt :=
  (["in", "is", "and", "or", "not"] : List String).map String.data

/-! ## Span functions (single-token rules of `RenpyLexer`) -/

/-- `\n` -/
def sNl (t : Txt) (p : Nat) : Option Nat :=
  match t.drop p with
  | '\n' :: _ => some (p + 1)
  | _ => none

/-- `words(screen_lang, prefix=r'\s+', suffix=r'\b')`: the greedy `\s+` run
backtracks from its maximal length down to 1 until the word alternation (and
its boundary) succeeds. -/
def wspGo (ws : List Txt) (t : Txt) (p : Nat) : Nat → Option Nat
  | 0 => none
  | k + 1 =>
    match wordsAt ws t (p + (k + 1)) with
    | some w => some (p + (k + 1) + w.length)
    | none => wspGo ws t p k

/-- Span of a `words(..., prefix=r'\s+', suffix=r'\b')` rule. -/
def wspWords (ws : List Txt) (t : Txt) (p : Nat) : Option Nat :=
  wspGo ws t p (runLenAt wsChar t p)

/-- Span of a `words(..., prefix=<literal>, suffix=r'\b')` rule. -/
def litWords (pre : Txt) (ws : List Txt) (t : Txt) (p : Nat) : Option Nat :=
  if litAt t p pre then
    (wordsAt ws t (p + pre.length)).map fun w => p + pre.length + w.length
  else none

/-- Span of a `words(..., prefix=r'(?<!\.)', suffix=r'\b')` rule: the
lookbehind requires the previous character (if any) not to be a dot. -/
def noDotWords (ws : List Txt) (t : Txt) (p : Nat) : Option Nat :=
  if p ≠ 0 && decide (t.getD (p - 1) 'x' = '.') then none
  else (wordsAt ws t p).map fun w => p + w.length

/-- Span of a plain `words(..., suffix=r'\b')` rule. -/
def plainWords (ws : List Txt) (t : Txt) (p : Nat) : Option Nat :=
  (wordsAt ws t p).map fun w => p + w.length

/-- Span of the written-out alternation `(in|is|and|or|not)\b`. -/
def altSpan (ws : List Txt) (t : Txt) (p : Nat) : Option Nat :=
  (altAt ws t p).map fun w => p + w.length

/-- Span of `(?<!\.)(self|None|Ellipsis|NotImplemented|False|True|cls)\b`. -/
def noDotAltSpan (ws : List Txt) (t : Txt) (p : Nat) : Option Nat :=
  if p ≠ 0 && decide (t.getD (p - 1) 'x' = '.') then none
  else altSpan ws t p

/-- `^ *\$` — `Renpy.Python.Inline`. -/
def sPyInline (t : Txt) (p : Nat) : Option Nat :=
  if atLS t p then
    let k := runLenAt (fun c => c = ' ') t p
    match t.drop (p + k) with
    | '$' :: _ => some (p + k + 1)
    | _ => none
  else none

/-- `\$` — `String.Symbol`. -/
def sDollar (t : Txt) (p : Nat) : Option Nat :=
  match t.drop p with
  | '$' :: _ => some (p + 1)
  | _ => none

/-- `[^\S\n]+` — horizontal whitespace. -/
def sHWs (t : Txt) (p : Nat) : Option Nat :=
  let n := runLenAt (fun c => wsChar c && c ≠ '\n') t p
  if n = 0 then none else some (p + n)

/-- `\A#!.+$` — hashbang comment (only at the absolute start of the text). -/
def sHashbang (t : Txt) (p : Nat) : Option Nat :=
  if p = 0 && litAt t 0 "#!".data then
    let n := runLenAt (fun c => c ≠ '\n') t 2
    if n = 0 then none else some (2 + n)
  else none

/-- `#.*$` — single-line comment. -/
def sComment (t : Txt) (p : Nat) : Option Nat :=
  match t.drop p with
  | '#' :: _ => some (p + 1 + runLenAt (fun c => c ≠ '\n') t (p + 1))
  | _ => none

/-- `[]{}:(),;[]` — punctuation character class. -/
def sPunct (t : Txt) (p : Nat) : Option Nat :=
  match t.drop p with
  | c :: _ =>
    if c = ']' || c = Char.ofNat 123 || c = Char.ofNat 125 || c = ':' || c = '(' ||
       c = ')' || c = ',' || c = ';' || c = '[' then some (p + 1) else none
  | _ => none

/-- `\\\n` -/
def sBsNl (t : Txt) (p : Nat) : Option Nat :=
  match t.drop p with
  | '\\' :: '\n' :: _ => some (p + 2)
  | _ => none

/-- `\\` -/
def sBs (t : Txt) (p : Nat) : Option Nat :=
  match t.drop p with
  | '\\' :: _ => some (p + 1)
  | _ => none

/-- `!=|==|<<|>>|[-~+/*%=<>&^|.]` — operators (alternation in written order). -/
def sOper (t : Txt) (p : Nat) : Option Nat :=
  if litAt t p "!=".data || litAt t p "==".data || litAt t p "<<".data ||
     litAt t p ">>".data then some (p + 2)
  else
    match t.drop p with
    | c :: _ =>
      if c = '-' || c = '~' || c = '+' || c = '/' || c = '*' || c = '%' || c = '=' ||
         c = '<' || c = '>' || c = '&' || c = '^' || c = '|' || c = '.' then
        some (p + 1)
      else none
    | _ => none

/-- `` `.*?` `` — backtick string (the `.` of the pattern does not match a
newline, and `*?` is non-greedy, so the match ends at the first closing
backtick on the same line). -/
def sBacktick (t : Txt) (p : Nat) : Option Nat :=
  let bt := Char.ofNat 96
  match t.drop p with
  | c :: _ =>
    if c = bt then
      let n := runLenAt (fun d => d ≠ bt && d ≠ '\n') t (p + 1)
      match t.drop (p + 1 + n) with
      | d :: _ => if d = bt then some (p + 2 + n) else none
      | _ => none
    else none
  | _ => none

/-- `@[\w.]+` — decorator. -/
def sDecorator (t : Txt) (p : Nat) : Option Nat :=
  match t.drop p with
  | '@' :: _ =>
    let n := runLenAt (fun c => isWordChar c || c = '.') t (p + 1)
    if n = 0 then none else some (p + 1 + n)
  | _ => none

/-- `[a-zA-Z_]\w*` — identifier. -/
def sIdent (t : Txt) (p : Nat) : Option Nat :=
  match t.drop p with
  | c :: _ =>
    if isIdentStart c then some (p + 1 + runLenAt isWordChar t (p + 1)) else none
  | _ => none

/-! ## Number rules of `RenpyLexer.tokens['numbers']` -/

/-- The optional exponent `([eE][+-]?[0-9]+)?` starting at `q`; returns the
end of the exponent when it fully matches, otherwise `q` (the greedy option
backtracks to the empty match). -/
def expoOpt (t : Txt) (q : Nat) : Nat :=
  match t.drop q with
  | e :: rest =>
    if e = 'e' || e = 'E' then
      let s : Nat :=
        match rest with
        | c :: _ => if c = '+' || c = '-' then 1 else 0
        | [] => 0
      let d := runLenAt Char.isDigit t (q + 1 + s)
      if d = 0 then q else q + 1 + s + d
    else q
  | [] => q

/-- The optional trailing `j?` starting at `q`. -/
def jOpt (t : Txt) (q : Nat) : Nat :=
  match t.drop q with
  | 'j' :: _ => q + 1
  | _ => q

/-- `(\d+\.\d*|\d*\.\d+)([eE][+-]?[0-9]+)?j?` — `Number.Float`.  The two
branches of the alternation both place the dot immediately after the maximal
leading digit run; the first requires at least one digit before the dot, the
second at least one digit after it. -/
def sFloat1 (t : Txt) (p : Nat) : Option Nat :=
  let d1 := runLenAt Char.isDigit t p
  match t.drop (p + d1) with
  | '.' :: _ =>
    let d2 := runLenAt Char.isDigit t (p + d1 + 1)
    if d1 = 0 && d2 = 0 then none
    else some (jOpt t (expoOpt t (p + d1 + 1 + d2)))
  | _ => none

/-- `\d+[eE][+-]?[0-9]+j?` — `Number.Float` (mandatory exponent). -/
def sFloat2 (t : Txt) (p : Nat) : Option Nat :=
  let d1 := runLenAt Char.isDigit t p
  if d1 = 0 then none
  else
    let e := expoOpt t (p + d1)
    if e = p + d1 then none else some (jOpt t e)

/-- `0[0-7]+j?` — `Number.Oct`. -/
def sOct (t : Txt) (p : Nat) : Option Nat :=
  match t.drop p with
  | '0' :: _ =>
    let n := runLenAt (fun c => '0' ≤ c && c ≤ '7') t (p + 1)
    if n = 0 then none else some (jOpt t (p + 1 + n))
  | _ => none

/-- `0[bB][01]+` — `Number.Bin`. -/
def sBin (t : Txt) (p : Nat) : Option Nat :=
  match t.drop p with
  | '0' :: b :: _ =>
    if b = 'b' || b = 'B' then
      let n := runLenAt (fun c => c = '0' || c = '1') t (p + 2)
      if n = 0 then none else some (p + 2 + n)
    else none
  | _ => none

/-- Hexadecimal digit of `[a-fA-F0-9]`. -/
def isHexCh (c : Char) : Bool :=
  Char.isDigit c || ('a' ≤ c && c ≤ 'f') || ('A' ≤ c && c ≤ 'F')

/-- `0[xX][a-fA-F0-9]+` — `Number.Hex`. -/
def sHex (t : Txt) (p : Nat) : Option Nat :=
  match t.drop p with
  | '0' :: x :: _ =>
    if x = 'x' || x = 'X' then
      let n := runLenAt isHexCh t (p + 2)
      if n = 0 then none else some (p + 2 + n)
    else none
  | _ => none

/-- `\d+L` — `Number.Integer.Long`. -/
def sIntL (t : Txt) (p : Nat) : Option Nat :=
  let d := runLenAt Char.isDigit t p
  if d = 0 then none
  else
    match t.drop (p + d) with
    | 'L' :: _ => some (p + d + 1)
    | _ => none

/-- `\d+j?` — `Number.Integer`. -/
def sInt (t : Txt) (p : Nat) : Option Nat :=
  let d := runLenAt Char.isDigit t p
  if d = 0 then none else some (jOpt t (p + d))

/-! ## `bygroups` matchers of `RenpyLexer` -/

/-- `((renpy|im)\.[a-zA-Z_]+)\(([a-zA-Z_ ,=]+)\)` with
`bygroups(Renpy.Function.Builtin, Renpy.Function.Arguments)`.  The action
lists only two kinds, so Pygments pairs group 1 (the dotted call target) with
`Renpy.Function.Builtin` and the *nested* group 2 (`renpy`/`im`) with
`Renpy.Function.Arguments`; group 3 (the arguments) and the literal
parentheses produce no token at all. -/
def gRenpyFn (t : Txt) (p : Nat) : Option (List Tk × Nat) :=
  let n? : Option Nat :=
    if litAt t p "renpy".data then some 5
    else if litAt t p "im".data then some 2
    else none
  match n? with
  | none => none
  | some n =>
    match t.drop (p + n) with
    | '.' :: _ =>
      let m := runLenAt isIdentStart t (p + n + 1)
      if m = 0 then none
      else
        match t.drop (p + n + 1 + m) with
        | '(' :: _ =>
          let q := runLenAt (fun c => isIdentStart c || c = ' ' || c = ',' || c = '=') t
              (p + n + 1 + m + 1)
          if q = 0 then none
          else
            match t.drop (p + n + 1 + m + 1 + q) with
            | ')' :: _ =>
              some (gtoks [(p, Tok.renpyFunctionBuiltin, seg t p (p + n + 1 + m)),
                           (p, Tok.renpyFunctionArguments, seg t p (p + n))],
                    p + n + 1 + m + 1 + q + 1)
            | _ => none
        | _ => none
    | _ => none

/-- Is `c` one of the string-affix characters `[rRuUbB]`? -/
def isAffixCh (c : Char) : Bool :=
  c = 'r' || c = 'R' || c = 'u' || c = 'U' || c = 'b' || c = 'B'

/-- Index (relative to the list) of the first occurrence of three consecutive
`qc` characters. -/
def findTriple (qc : Char) : Txt → Option Nat
  | a :: rest =>
    match rest with
    | b :: c :: _ =>
      if a = qc && b = qc && c = qc then some 0
      else (findTriple qc rest).map (· + 1)
    | _ => none
  | [] => none

/-- `^(\s*)([rRuUbB]{,2})(<q><q><q>(?:.|\n)*?<q><q><q>)` with
`bygroups(Text, String.Affix, String.Doc)` (docstring rule; `q` is the quote
character).  The greedy `\s*` run is deterministic (affix and quote
characters are not whitespace), the affix takes at most two characters, and
the non-greedy body ends at the first closing triple quote. -/
def gDoc (qc : Char) (t : Txt) (p : Nat) : Option (List Tk × Nat) :=
  if atLS t p then
    let k := runLenAt wsChar t p
    let a := min 2 (runLenAt isAffixCh t (p + k))
    if litAt t (p + k + a) [qc, qc, qc] then
      match findTriple qc (t.drop (p + k + a + 3)) with
      | some j =>
        some (gtoks [(p, Tok.text, seg t p (p + k)),
                     (p + k, Tok.stringAffix, seg t (p + k) (p + k + a)),
                     (p + k + a, Tok.stringDoc, seg t (p + k + a) (p + k + a + 3 + j + 3))],
              p + k + a + 3 + j + 3)
      | none => none
    else none
  else none

/-- Length of the greedy `(?:\s|\\\s)+` run: whitespace characters and
backslash-escaped whitespace characters. -/
def bsWsUnits : Txt → Nat
  | [] => 0
  | c :: cs =>
    if wsChar c then bsWsUnits cs + 1
    else if c = '\\' then
      match cs with
      | d :: ds => if wsChar d then bsWsUnits ds + 2 else 0
      | [] => 0
    else 0

/-- `(<word>)((?:\s|\\\s)+)` with `bygroups(<k>, Text)` — the shape of the
`def`/`class`/`from`/`import` rules. -/
def gKwWs (w : Txt) (k : Tok) (t : Txt) (p : Nat) : Option (List Tk × Nat) :=
  if litAt t p w then
    let n := bsWsUnits (t.drop (p + w.length))
    if n = 0 then none
    else
      some (gtoks [(p, k, w), (p + w.length, Tok.text, seg t (p + w.length) (p + w.length + n))],
            p + w.length + n)
  else none

/-- `([rR]|[uUbB][rR]|[rR][uUbB])(<quotes>)` with
`bygroups(String.Affix, String.<kind>)` — raw-string opening rules.  The
three alternatives of the affix group are tried in written order, each
followed by the quote sequence. -/
def gRawStr (quotes : Txt) (k : Tok) (t : Txt) (p : Nat) : Option (List Tk × Nat) :=
  let isRCh : Char → Bool := fun c => c = 'r' || c = 'R'
  let isUBCh : Char → Bool := fun c => c = 'u' || c = 'U' || c = 'b' || c = 'B'
  let alt : Option Nat :=
    match t.drop p with
    | c :: rest =>
      if isRCh c && litAt t (p + 1) quotes then some 1
      else
        match rest with
        | d :: _ =>
          if isUBCh c && isRCh d && litAt t (p + 2) quotes then some 2
          else if isRCh c && isUBCh d && litAt t (p + 2) quotes then some 2
          else none
        | [] => none
    | [] => none
  match alt with
  | some a =>
    some (gtoks [(p, Tok.stringAffix, seg t p (p + a)),
                 (p + a, k, quotes)],
          p + a + quotes.length)
  | none => none

/-- `([uUbB]?)(<quotes>)` with `bygroups(String.Affix, String.<kind>)` —
non-raw string opening rules (the greedy optional affix is tried first). -/
def gOptStr (quotes : Txt) (k : Tok) (t : Txt) (p : Nat) : Option (List Tk × Nat) :=
  let isUBCh : Char → Bool := fun c => c = 'u' || c = 'U' || c = 'b' || c = 'B'
  match t.drop p with
  | c :: _ =>
    if isUBCh c && litAt t (p + 1) quotes then
      some (gtoks [(p, Tok.stringAffix, [c]), (p + 1, k, quotes)], p + 1 + quotes.length)
    else if litAt t p quotes then
      some (gtoks [(p, Tok.stringAffix, []), (p, k, quotes)], p + quotes.length)
    else none
  | [] => none

/-! ## Inner-string rules (`innerstring_rules`, `stringescape`) -/

/-- `%(\(\w+\))?[-#0 +]*([0-9]+|[*])?(\.([0-9]+|[*]))?[hlL]?[E-GXc-giorsux%]`
— old-style string interpolation (`String.Interpol`).  The optional groups
are resolved greedily; whenever a partially present optional group cannot
complete, no shorter reading can rescue the match (the final conversion
character class contains none of the characters the groups consume), so the
rule fails, matching the regex's backtracking outcome. -/
def sInterp (t : Txt) (p : Nat) : Option Nat :=
  match t.drop p with
  | '%' :: _ =>
    let afterKey : Option Nat :=
      match t.drop (p + 1) with
      | '(' :: _ =>
        let w := runLenAt isWordChar t (p + 2)
        if w = 0 then none
        else
          match t.drop (p + 2 + w) with
          | ')' :: _ => some (p + 2 + w + 1)
          | _ => none
      | _ => some (p + 1)
    match afterKey with
    | none => none
    | some q0 =>
      let q1 := q0 + runLenAt (fun c => c = '-' || c = '#' || c = '0' || c = ' ' || c = '+') t q0
      let q2 :=
        let d := runLenAt Char.isDigit t q1
        if d ≠ 0 then q1 + d
        else
          match t.drop q1 with
          | '*' :: _ => q1 + 1
          | _ => q1
      let q3? : Option Nat :=
        match t.drop q2 with
        | '.' :: _ =>
          let d := runLenAt Char.isDigit t (q2 + 1)
          if d ≠ 0 then some (q2 + 1 + d)
          else
            match t.drop (q2 + 1) with
            | '*' :: _ => some (q2 + 2)
            | _ => none
        | _ => some q2
      match q3? with
      | none => none
      | some q3 =>
        let q4 :=
          match t.drop q3 with
          | c :: _ => if c = 'h' || c = 'l' || c = 'L' then q3 + 1 else q3
          | [] => q3
        match t.drop q4 with
        | c :: _ =>
          if ('E' ≤ c && c ≤ 'G') || c = 'X' || ('c' ≤ c && c ≤ 'g') || c = 'i' ||
             c = 'o' || c = 'r' || c = 's' || c = 'u' || c = 'x' || c = '%' then
            some (q4 + 1)
          else none
        | [] => none
  | _ => none

/-- `[^\\\'"%\n]+` — plain string body characters. -/
def sStrBody (t : Txt) (p : Nat) : Option Nat :=
  let n := runLenAt (fun c => c ≠ '\\' && c ≠ '\'' && c ≠ '"' && c ≠ '%' && c ≠ '\n') t p
  if n = 0 then none else some (p + n)

/-- `[\'"\\]` — a lone quote or backslash inside a string. -/
def sStrQuote (t : Txt) (p : Nat) : Option Nat :=
  match t.drop p with
  | c :: _ => if c = '\'' || c = '"' || c = '\\' then some (p + 1) else none
  | [] => none

/-- `%` — unhandled formatting sign. -/
def sPct (t : Txt) (p : Nat) : Option Nat :=
  match t.drop p with
  | '%' :: _ => some (p + 1)
  | _ => none

/-- `\\\\|\\<q>|\\\n` — escapes kept visible in raw strings (`q` the quote). -/
def sRawEsc (qc : Char) (t : Txt) (p : Nat) : Option Nat :=
  match t.drop p with
  | '\\' :: d :: _ => if d = '\\' || d = qc || d = '\n' then some (p + 2) else none
  | _ => none

/-- The `stringescape` rule
`\\([\\abfnrtv"\']|\n|N\{.*?\}|u[a-fA-F0-9]{4}|U[a-fA-F0-9]{8}|x[a-fA-F0-9]{2}|[0-7]{1,3})`
(alternatives tried in written order). -/
def sEsc (t : Txt) (p : Nat) : Option Nat :=
  match t.drop p with
  | '\\' :: c :: _ =>
    if c = '\\' || c = 'a' || c = 'b' || c = 'f' || c = 'n' || c = 'r' || c = 't' ||
       c = 'v' || c = '"' || c = '\'' then some (p + 2)
    else if c = '\n' then some (p + 2)
    else if c = 'N' then
      match t.drop (p + 2) with
      | d :: _ =>
        if d = Char.ofNat 123 then
          let n := runLenAt (fun e => e ≠ Char.ofNat 125 && e ≠ '\n') t (p + 3)
          match t.drop (p + 3 + n) with
          | e :: _ => if e = Char.ofNat 125 then some (p + 3 + n + 1) else none
          | [] => none
        else none
      | [] => none
    else if c = 'u' then
      if runLenAt isHexCh t (p + 2) ≥ 4 then some (p + 6) else none
    else if c = 'U' then
      if runLenAt isHexCh t (p + 2) ≥ 8 then some (p + 10) else none
    else if c = 'x' then
      if runLenAt isHexCh t (p + 2) ≥ 2 then some (p + 4) else none
    else
      let k := min 3 (runLenAt (fun e => '0' ≤ e && e ≤ '7') t (p + 1))
      if k = 0 then none else some (p + 1 + k)
  | _ => none

/-- `(?:[ \t]|\\\n)+` — whitespace inside `import`/`fromimport` states. -/
def impWsUnits : Txt → Nat
  | [] => 0
  | c :: cs =>
    if c = ' ' || c = '\t' then impWsUnits cs + 1
    else if c = '\\' then
      match cs with
      | d :: ds => if d = '\n' then impWsUnits ds + 2 else 0
      | [] => 0
    else 0

/-- Span of the `import`-state whitespace rule. -/
def sImpWs (t : Txt) (p : Nat) : Option Nat :=
  let n := impWsUnits (t.drop p)
  if n = 0 then none else some (p + n)

/-- `<word>\b` — a single keyword alternative (`as`, `import`, `None`). -/
def sWordB (w : Txt) (t : Txt) (p : Nat) : Option Nat :=
  if okW t p w then some (p + w.length) else none

/-- `,` -/
def sComma (t : Txt) (p : Nat) : Option Nat :=
  match t.drop p with
  | ',' :: _ => some (p + 1)
  | _ => none

/-- `[a-zA-Z_][\w.]*` — dotted module name (`import` state). -/
def sNsIdent (t : Txt) (p : Nat) : Option Nat :=
  match t.drop p with
  | c :: _ =>
    if isIdentStart c then some (p + 1 + runLenAt (fun d => isWordChar d || d = '.') t (p + 1))
    else none
  | _ => none

/-- `[a-zA-Z_.][\w.]*` — dotted module name (`fromimport` state; a leading
dot is allowed). -/
def sFromIdent (t : Txt) (p : Nat) : Option Nat :=
  match t.drop p with
  | c :: _ =>
    if isIdentStart c || c = '.' then
      some (p + 1 + runLenAt (fun d => isWordChar d || d = '.') t (p + 1))
    else none
  | _ => none

/-- `<q>` — single closing quote. -/
def sChar1 (qc : Char) (t : Txt) (p : Nat) : Option Nat :=
  match t.drop p with
  | c :: _ => if c = qc then some (p + 1) else none
  | _ => none

/-- `<q><q><q>` — closing triple quote. -/
def sTriple (qc : Char) (t : Txt) (p : Nat) : Option Nat :=
  if litAt t p [qc, qc, qc] then some (p + 3) else none

/-! ## The `RenpyLexer` rule table

Rules are named `rNN` in the order obtained after resolving the `include`
directives of `RenpyLexer.tokens['root']` (the order Pygments' table
compilation produces): `screen_lang`, `screen_actions`, `keywords`,
`special_labels`, `builtins`, `magicfuncs`, `magicvars`, `backtick`, `name`
and `numbers` are spliced in place. -/

def r01 : Rule := mk1 sNl .text .stay
def r02 : Rule := mk1 (wspWords screenLangWords) .renpyScreenDisplayables .stay
def r03 : Rule := mk1 sPyInline .renpyPythonInline .stay
def r04 : Rule := mkG gRenpyFn .stay
def r05 : Rule := mk1 (litWords [' '] screenActionWords) .renpyScreenActions .stay
def r06 : Rule := mk1 sDollar .stringSymbol .stay
def r07 : Rule := mkG (gDoc '"') .stay
def r08 : Rule := mkG (gDoc '\'') .stay
def r09 : Rule := mk1 sHWs .text .stay
def r10 : Rule := mk1 sHashbang .commentHashbang .stay
def r11 : Rule := mk1 sComment .commentSingle .stay
def r12 : Rule := mk1 sPunct .punctuation .stay
def r13 : Rule := mk1 sBsNl .text .stay
def r14 : Rule := mk1 sBs .text .stay
def r15 : Rule := mk1 (altSpan opWordList) .operatorWord .stay
def r16 : Rule := mk1 sOper .operator .stay
def r17 : Rule := mk1 (plainWords kwWords) .keyword .stay
def r18 : Rule := mk1 (plainWords rsvWords) .renpyReserved .stay
def r19 : Rule := mk1 (plainWords declWords) .renpyDeclaration .stay
def rSpecial : Rule := mk1 (litWords "label ".data specialWords) .renpyLabelReserved .stay
def r21 : Rule := mkG (gKwWs "def".data .keyword) (.push .funcname)
def r22 : Rule := mkG (gKwWs "class".data .keyword) (.push .classname)
def r23 : Rule := mkG (gKwWs "from".data .keywordNamespace) (.push .fromimport)
def r24 : Rule := mkG (gKwWs "import".data .keywordNamespace) (.push .imp)
def r25 : Rule := mk1 (noDotWords builtinWords) .nameBuiltin .stay
def r26 : Rule := mk1 (noDotAltSpan pseudoWords) .nameBuiltinPseudo .stay
def r27 : Rule := mk1 (noDotWords exceptionWords) .nameException .stay
def r28 : Rule := mk1 (plainWords magicFuncWords) .nameFunctionMagic .stay
def r29 : Rule := mk1 (plainWords magicVarWords) .nameVariableMagic .stay
def r30 : Rule := mk1 sBacktick .stringBacktick .stay
def r31 : Rule := mkG (gRawStr "\"\"\"".data .stringDouble) (.push .tdqs)
def r32 : Rule := mkG (gRawStr "'''".data .stringSingle) (.push .tsqs)
def r33 : Rule := mkG (gRawStr ['"'] .stringDouble) (.push .dqs)
def r34 : Rule := mkG (gRawStr ['\''] .stringSingle) (.push .sqs)
def r35 : Rule := mkG (gOptStr "\"\"\"".data .stringDouble) (.push .ctdqs)
def r36 : Rule := mkG (gOptStr "'''".data .stringSingle) (.push .ctsqs)
def r37 : Rule := mkG (gOptStr ['"'] .stringDouble) (.push .cdqs)
def r38 : Rule := mkG (gOptStr ['\''] .stringSingle) (.push .csqs)
def r39 : Rule := mk1 sDecorator .nameDecorator .stay
def r40 : Rule := mk1 sIdent .name .stay
def r41 : Rule := mk1 sFloat1 .numberFloat .stay
def r42 : Rule := mk1 sFloat2 .numberFloat .stay
def r43 : Rule := mk1 sOct .numberOct .stay
def r44 : Rule := mk1 sBin .numberBin .stay
def r45 : Rule := mk1 sHex .numberHex .stay
def r46 : Rule := mk1 sIntL .numberIntegerLong .stay
def r47 : Rule := mk1 sInt .numberInteger .stay

/-- Root rules up to and including the `keywords` include (everything listed
before `include('special_labels')`). -/
def renpyRootA : List Rule :=
  [r01, r02, r03, r04, r05, r06, r07, r08, r09, r10, r11, r12, r13, r14, r15,
   r16, r17, r18, r19]

/-- Root rules after the `special_labels` include. -/
def renpyRootB : List Rule :=
  [r21, r22, r23, r24, r25, r26, r27, r28, r29, r30, r31, r32, r33, r34, r35,
   r36, r37, r38, r39, r40, r41, r42, r43, r44, r45, r46, r47]

/-- The fully resolved `root` state of `RenpyLexer`. -/
def renpyRoot : List Rule := renpyRootA ++ rSpecial :: renpyRootB

/-- `innerstring_rules(String.Double)` (state `strings-double`). -/
def stringsDouble : List Rule :=
  [mk1 sInterp .stringInterpol .stay, mk1 sStrBody .stringDouble .stay,
   mk1 sStrQuote .stringDouble .stay, mk1 sPct .stringDouble .stay]

/-- `innerstring_rules(String.Single)` (state `strings-single`). -/
def stringsSingle : List Rule :=
  [mk1 sInterp .stringInterpol .stay, mk1 sStrBody .stringSingle .stay,
   mk1 sStrQuote .stringSingle .stay, mk1 sPct .stringSingle .stay]

/-- State `dqs` (with `include('strings-double')` resolved). -/
def dqsRules : List Rule :=
  [mk1 (sChar1 '"') .stringDouble .pop, mk1 (sRawEsc '"') .stringEscape .stay] ++
  stringsDouble

/-- State `sqs`. -/
def sqsRules : List Rule :=
  [mk1 (sChar1 '\'') .stringSingle .pop, mk1 (sRawEsc '\'') .stringEscape .stay] ++
  stringsSingle

/-- State `tdqs`. -/
def tdqsRules : List Rule :=
  mk1 (sTriple '"') .stringDouble .pop :: stringsDouble ++ [mk1 sNl .stringDouble .stay]

/-- State `tsqs`. -/
def tsqsRules : List Rule :=
  mk1 (sTriple '\'') .stringSingle .pop :: stringsSingle ++ [mk1 sNl .stringSingle .stay]

/-- State `stringescape`. -/
def escRules : List Rule := [mk1 sEsc .stringEscape .stay]

/-- State `funcname` (with `include('magicfuncs')` resolved). -/
def funcnameRules : List Rule :=
  [mk1 (plainWords magicFuncWords) .nameFunctionMagic .stay,
   mk1 sIdent .nameFunction .pop, mkDefault .pop]

/-- State `classname`. -/
def classnameRules : List Rule := [mk1 sIdent .nameClass .pop]

/-- State `import`. -/
def impRules : List Rule :=
  [mk1 sImpWs .text .stay, mk1 (sWordB "as".data) .keywordNamespace .stay,
   mk1 sComma .operator .stay, mk1 sNsIdent .nameNamespace .stay, mkDefault .pop]

/-- State `fromimport`. -/
def fromimportRules : List Rule :=
  [mk1 sImpWs .text .stay, mk1 (sWordB "import".data) .keywordNamespace .pop,
   mk1 (sWordB "None".data) .nameBuiltinPseudo .pop,
   mk1 sFromIdent .nameNamespace .stay, mkDefault .pop]

/-- The compiled rule table of `RenpyLexer` (the dead `'properties'` state,
which no rule includes or pushes, is omitted; `intb` belongs to the traceback
lexer's table). -/
def renpyTbl : SName → List Rule
  | .root => renpyRoot
  | .funcname => funcnameRules
  | .classname => classnameRules
  | .imp => impRules
  | .fromimport => fromimportRules
  | .dqs => dqsRules
  | .sqs => sqsRules
  | .tdqs => tdqsRules
  | .tsqs => tsqsRules
  | .cdqs => escRules ++ dqsRules
  | .csqs => escRules ++ sqsRules
  | .ctdqs => escRules ++ tdqsRules
  | .ctsqs => escRules ++ tsqsRules
  | .intb => []

/-- `RenpyLexer.get_tokens_unprocessed(text)`.  The fuel `2 * |t| + 2` is
sufficient: every step either consumes at least one character, or is a
zero-width `default('#pop')` step, and those are bounded by the number of
pushes (each of which consumes input). -/
def renpyTokens (t : Txt) : List Tk :=
  runFrom renpyTbl .root t (2 * t.length + 2) [.root] 0

/-! ## The `RenpyTracebackLexer` rule table -/

/-- `^(\^C)?(Traceback.*\n)` with `bygroups(Text, Generic.Traceback)`,
pushing `intb`.  Group 1 is a literal caret followed by `C`; when absent the
group is `None` and `bygroups` emits no token for it. -/
def gTbHdr (t : Txt) (p : Nat) : Option (List Tk × Nat) :=
  if atLS t p then
    let c : Nat := if litAt t p "^C".data then 2 else 0
    if litAt t (p + c) "Traceback".data then
      let n := runLenAt (fun d => d ≠ '\n') t (p + c)
      match t.drop (p + c + n) with
      | '\n' :: _ =>
        some (gtoks [(p, Tok.text, seg t p (p + c)),
                     (p + c, Tok.genericTraceback, seg t (p + c) (p + c + n + 1))],
              p + c + n + 1)
      | _ => none
    else none
  else none

/-- The lookahead body `  File "[^"]+", line \d+` (shared by the
`RenpyTracebackLexer` root lookahead rule and, with a mandatory trailing
newline, by the console dispatcher's header test).  Returns whether it
matches at `p`. -/
def fileLook (t : Txt) (p : Nat) : Bool :=
  litAt t p "  File \"".data &&
  (let b := runLenAt (fun c => c ≠ '"') t (p + 8)
   decide (0 < b) && litAt t (p + 8 + b) "\", line ".data &&
   decide (0 < runLenAt Char.isDigit t (p + 8 + b + 8)))

/-- `^(?=  File "[^"]+", line \d+)` — a zero-width lookahead rule; Pygments
emits the (empty) whole match as one `Generic.Traceback` token and pushes
`intb` without advancing the cursor. -/
def gLookFile (t : Txt) (p : Nat) : Option (List Tk × Nat) :=
  if atLS t p && fileLook t p then some ([(p, Tok.genericTraceback, [])], p) else none

/-- `^.*\n` — any complete line (`Other`). -/
def sOtherLine (t : Txt) (p : Nat) : Option Nat :=
  if atLS t p then
    let n := runLenAt (fun c => c ≠ '\n') t p
    match t.drop (p + n) with
    | '\n' :: _ => some (p + n + 1)
    | _ => none
  else none

/-- `^(  File )("[^"]+")(, line )(\d+)(, in )(.+)(\n)` with
`bygroups(Text, Name.Builtin, Text, Number, Text, Name, Text)`. -/
def gFileIn (t : Txt) (p : Nat) : Option (List Tk × Nat) :=
  if atLS t p && litAt t p "  File \"".data then
    let b := runLenAt (fun c => c ≠ '"') t (p + 8)
    if 0 < b && litAt t (p + 8 + b) "\", line ".data then
      let d := runLenAt Char.isDigit t (p + 9 + b + 7)
      if 0 < d && litAt t (p + 16 + b + d) ", in ".data then
        let m := runLenAt (fun c => c ≠ '\n') t (p + 21 + b + d)
        if 0 < m then
          match t.drop (p + 21 + b + d + m) with
          | '\n' :: _ =>
            some (gtoks [(p, Tok.text, "  File ".data),
                         (p + 7, Tok.nameBuiltin, seg t (p + 7) (p + 9 + b)),
                         (p + 9 + b, Tok.text, ", line ".data),
                         (p + 16 + b, Tok.number, seg t (p + 16 + b) (p + 16 + b + d)),
                         (p + 16 + b + d, Tok.text, ", in ".data),
                         (p + 21 + b + d, Tok.name, seg t (p + 21 + b + d) (p + 21 + b + d + m)),
                         (p + 21 + b + d + m, Tok.text, ['\n'])],
                  p + 22 + b + d + m)
          | _ => none
        else none
      else none
    else none
  else none

/-- `^(  File )("[^"]+")(, line )(\d+)(\n)` with
`bygroups(Text, Name.Builtin, Text, Number, Text)`. -/
def gFile (t : Txt) (p : Nat) : Option (List Tk × Nat) :=
  if atLS t p && litAt t p "  File \"".data then
    let b := runLenAt (fun c => c ≠ '"') t (p + 8)
    if 0 < b && litAt t (p + 8 + b) "\", line ".data then
      let d := runLenAt Char.isDigit t (p + 9 + b + 7)
      if 0 < d then
        match t.drop (p + 16 + b + d) with
        | '\n' :: _ =>
          some (gtoks [(p, Tok.text, "  File ".data),
                       (p + 7, Tok.nameBuiltin, seg t (p + 7) (p + 9 + b)),
                       (p + 9 + b, Tok.text, ", line ".data),
                       (p + 16 + b, Tok.number, seg t (p + 16 + b) (p + 16 + b + d)),
                       (p + 16 + b + d, Tok.text, ['\n'])],
                p + 17 + b + d)
        | _ => none
      else none
    else none
  else none

/-- `^(    )(.+)(\n)` with `bygroups(Text, using(RenpyLexer), Text)` — an
indented source-snippet line; the snippet is re-tokenized with `RenpyLexer`
and its token offsets are rebased to the group's start. -/
def gSnippet (t : Txt) (p : Nat) : Option (List Tk × Nat) :=
  if atLS t p && litAt t p "    ".data then
    let m := runLenAt (fun c => c ≠ '\n') t (p + 4)
    if 0 < m then
      match t.drop (p + 4 + m) with
      | '\n' :: _ =>
        some ((p, Tok.text, "    ".data) ::
              (renpyTokens (seg t (p + 4) (p + 4 + m))).map
                (fun tok => (p + 4 + tok.1, tok.2.1, tok.2.2)) ++
              [(p + 4 + m, Tok.text, ['\n'])],
              p + 5 + m)
      | _ => none
    else none
  else none

/-- `^([ \t]*)(\.\.\.)(\n)` with `bygroups(Text, Comment, Text)`. -/
def gEllipsis (t : Txt) (p : Nat) : Option (List Tk × Nat) :=
  if atLS t p then
    let k := runLenAt (fun c => c = ' ' || c = '\t') t p
    if litAt t (p + k) "...\n".data then
      some (gtoks [(p, Tok.text, seg t p (p + k)),
                   (p + k, Tok.comment, "...".data),
                   (p + k + 3, Tok.text, ['\n'])],
            p + k + 4)
    else none
  else none

/-- `^([^:]+)(: )(.+)(\n)` with `bygroups(Generic.Error, Text, Name, Text)`,
popping back to root.  `[^:]+` is a greedy run of non-colon characters
(newlines included), so group 1 ends exactly at the first colon, which must
be followed by a space. -/
def gErrMsg (t : Txt) (p : Nat) : Option (List Tk × Nat) :=
  if atLS t p then
    let j := runLenAt (fun c => c ≠ ':') t p
    if 0 < j && litAt t (p + j) ": ".data then
      let m := runLenAt (fun c => c ≠ '\n') t (p + j + 2)
      if 0 < m then
        match t.drop (p + j + 2 + m) with
        | '\n' :: _ =>
          some (gtoks [(p, Tok.genericError, seg t p (p + j)),
                       (p + j, Tok.text, ": ".data),
                       (p + j + 2, Tok.name, seg t (p + j + 2) (p + j + 2 + m)),
                       (p + j + 2 + m, Tok.text, ['\n'])],
                p + j + 3 + m)
        | _ => none
      else none
    else none
  else none

/-- `^([a-zA-Z_]\w*)(:?\n)` with `bygroups(Generic.Error, Text)`, popping
back to root (the greedy `:?` is tried first). -/
def gErrBare (t : Txt) (p : Nat) : Option (List Tk × Nat) :=
  if atLS t p then
    match t.drop p with
    | c :: _ =>
      if isIdentStart c then
        let n := 1 + runLenAt isWordChar t (p + 1)
        if litAt t (p + n) ":\n".data then
          some (gtoks [(p, Tok.genericError, seg t p (p + n)),
                       (p + n, Tok.text, ":\n".data)], p + n + 2)
        else
          match t.drop (p + n) with
          | '\n' :: _ =>
            some (gtoks [(p, Tok.genericError, seg t p (p + n)),
                         (p + n, Tok.text, ['\n'])], p + n + 1)
          | _ => none
      else none
    | [] => none
  else none

/-- Root state of `RenpyTracebackLexer`. -/
def tbRootRules : List Rule :=
  [mkG gTbHdr (.push .intb), mkG gLookFile (.push .intb), mk1 sOtherLine .other .stay]

/-- State `intb` of `RenpyTracebackLexer`. -/
def intbRules : List Rule :=
  [mkG gFileIn .stay, mkG gFile .stay, mkG gSnippet .stay, mkG gEllipsis .stay,
   mkG gErrMsg .pop, mkG gErrBare .pop]

/-- The compiled rule table of `RenpyTracebackLexer`. -/
def tbTbl : SName → List Rule
  | .root => tbRootRules
  | .intb => intbRules
  | _ => []

/-- `RenpyTracebackLexer.get_tokens_unprocessed(text)`. -/
def tbTokens (t : Txt) : List Tk :=
  runFrom tbTbl .root t (2 * t.length + 2) [.root] 0

/-! ## The console dispatcher `RenpyConsoleLexer`

`get_tokens_unprocessed` iterates over `line_re.finditer(text)` with
`line_re = re.compile('.*?\n')`: the newline-terminated lines of the text, in
order (a trailing fragment with no newline is never matched and is silently
dropped), each with its absolute start offset `match.start()`. -/

/-- The newline-terminated lines of a text (`line_re.finditer`); a trailing
unterminated fragment is dropped. -/
def splitLines : Txt → List Txt
  | [] => []
  | c :: cs =>
    match splitLines cs with
    | [] => if c = '\n' then [['\n']] else []
    | l :: ls => if c = '\n' then ['\n'] :: l :: ls else (c :: l) :: ls

/-- Attach absolute start offsets to a list of lines, starting at `s`. -/
def withStarts (s : Nat) : List Txt → List (Nat × Txt)
  | [] => []
  | l :: ls => (s, l) :: withStarts (s + l.length) ls

def linesOf (t : Txt) : List (Nat × Txt) := withStarts 0 (splitLines t)

/-- Python `str.rstrip()`. -/
def rstrip (l : Txt) : Txt := (l.reverse.dropWhile wsChar).reverse

/-- Python `str.strip()`. -/
def pstrip (l : Txt) : Txt := rstrip (l.dropWhile wsChar)

/-- `re.match('  File "[^"]+", line \\d+\\n$', line)` of the console
dispatcher: the whole line must be a File header with no `, in` part. -/
def fileHeadMatch (l : Txt) : Bool :=
  litAt l 0 "  File \"".data &&
  (let b := runLenAt (fun c => c ≠ '"') l 8
   decide (0 < b) && litAt l (8 + b) "\", line ".data &&
   (let d := runLenAt Char.isDigit l (16 + b)
    decide (0 < d) && decide (l.drop (16 + b + d) = ['\n'])))

/-! ### `pygments.lexer.do_insertions` -/

/-- An insertion: a buffer-relative cut offset plus the tokens to splice in
there. -/
abbrev Ins := Nat × List Tk

/-- Emit a list of insertion tokens starting at `rp`, each token placed at
the running position (`yield realpos, it_token, it_value; realpos += ...`). -/
def emitAt (rp : Nat) : List Tk → List Tk × Nat
  | [] => ([], rp)
  | (_, k, v) :: rest =>
    let pr := emitAt (rp + v.length) rest
    ((rp, k, v) :: pr.1, pr.2)

/-- The trailing loop of `do_insertions`: no base tokens are left, so the
current and all remaining insertions are drained at the running position. -/
def drainAll (rp : Nat) (itoks : List Tk) : List Ins → List Tk
  | [] => (emitAt rp itoks).1
  | (_, it') :: rest' =>
    let pr := emitAt rp itoks
    pr.1 ++ drainAll pr.2 it' rest'

/-- The inner `while insleft and i + len(v) >= index` loop of
`do_insertions`, processing one base token `(i, k, v)`.  Returns the emitted
tokens, the updated running position, and the remaining insertion state
(`none` once the insertion iterator is exhausted, i.e. `insleft` is false). -/
def insTokLoop (i : Nat) (k : Tok) (v : Txt) :
    Nat → Nat → Nat → List Tk → List Ins → List Tk × Nat × Option (Nat × List Tk × List Ins)
  | oldi, rp, idx, itoks, rest =>
    if idx ≤ i + v.length then
      let tmp := (v.drop oldi).take (idx - i - oldi)
      let out1 : List Tk := if tmp.isEmpty then [] else [(rp, k, tmp)]
      let pr := emitAt (rp + tmp.length) itoks
      match rest with
      | [] =>
        -- `next(insertions)` raises StopIteration: insleft := False, break,
        -- then the token's remainder is emitted.
        let oldi' := idx - i
        if oldi' < v.length then
          (out1 ++ pr.1 ++ [(pr.2, k, v.drop oldi')], pr.2 + (v.length - oldi'), none)
        else (out1 ++ pr.1, pr.2, none)
      | (idx', it') :: rest' =>
        let rec2 := insTokLoop i k v (idx - i) pr.2 idx' it' rest'
        (out1 ++ pr.1 ++ rec2.1, rec2.2.1, rec2.2.2)
    else
      if oldi < v.length then
        ((rp, k, v.drop oldi) :: [], rp + (v.length - oldi), some (idx, itoks, rest))
      else ([], rp, some (idx, itoks, rest))

/-- The main loop of `do_insertions` over the base tokens.  `rp?` is the
`realpos` variable (`none` until the first base token fixes it). -/
def insToks : List Tk → Option Nat → Option (Nat × List Tk × List Ins) → List Tk
  | [], rp?, none => []
  | [], rp?, some (_, itoks, rest) => drainAll (rp?.getD 0) itoks rest
  | (i, k, v) :: ts, rp?, none =>
    let rp := rp?.getD i
    (rp, k, v) :: insToks ts (some (rp + v.length)) none
  | (i, k, v) :: ts, rp?, some (idx, itoks, rest) =>
    let rp := rp?.getD i
    let pr := insTokLoop i k v 0 rp idx itoks rest
    pr.1 ++ insToks ts (some pr.2.1) pr.2.2

/-- `pygments.lexer.do_insertions(insertions, tokens)`. -/
def do_insertions (ins : List Ins) (toks : List Tk) : List Tk :=
  match ins with
  | [] => toks
  | (idx, it) :: rest => insToks toks none (some (idx, it, rest))

/-! ### The console line loop -/

/-- The mutable locals of `RenpyConsoleLexer.get_tokens_unprocessed`. -/
structure CSt where
  curcode : Txt := []
  ins : List Ins := []
  curtb : Txt := []
  tbindex : Nat := 0
  tb : Bool := false

/-- Flush the pending code buffer: tokenize it with the `RenpyLexer`
sub-lexer and merge the collected prompt insertions. -/
def pyFlush (st : CSt) : List Tk :=
  if st.curcode.isEmpty then [] else do_insertions st.ins (renpyTokens st.curcode)

/-- Shift token offsets by `d` (`yield tbindex + i, t, v`). -/
def shiftBy (d : Nat) (l : List Tk) : List Tk :=
  l.map fun tok => (d + tok.1, tok.2.1, tok.2.2)

/-- One iteration of the console dispatcher's line loop: given the current
state, a line and its absolute start offset, the new state and the tokens
yielded during that iteration. -/
def consoleLine (st : CSt) (start : Nat) (line : Txt) : CSt × List Tk :=
  if litAt line 0 ">>> ".data || litAt line 0 "... ".data then
    ({ st with tb := false,
               ins := st.ins ++ [(st.curcode.length, [(0, Tok.genericPrompt, line.take 4)])],
               curcode := st.curcode ++ line.drop 4 }, [])
  else if rstrip line = "...".data && !st.tb then
    ({ st with ins := st.ins ++ [(st.curcode.length, [(0, Tok.genericPrompt, "...".data)])],
               curcode := st.curcode ++ line.drop 3 }, [])
  else
    let flushed := pyFlush st
    let st1 : CSt := { st with curcode := [], ins := [] }
    if litAt line 0 "Traceback (most recent call last):".data || fileHeadMatch line then
      ({ st1 with tb := true, curtb := line, tbindex := start }, flushed)
    else if line = "KeyboardInterrupt\n".data then
      (st1, flushed ++ [(start, Tok.nameClass, line)])
    else if st1.tb then
      let curtb := st1.curtb ++ line
      if !(litAt line 0 [' '] || pstrip line = "...".data) then
        ({ st1 with tb := false, curtb := [] },
         flushed ++ shiftBy st1.tbindex (tbTokens curtb))
      else ({ st1 with curtb := curtb }, flushed)
    else (st1, flushed ++ [(start, Tok.genericOutput, line)])

/-- Fold the line loop over the lines. -/
def consoleGo (st : CSt) : List (Nat × Txt) → List Tk
  | [] =>
    pyFlush st ++
    (if st.curtb.isEmpty then [] else shiftBy st.tbindex (tbTokens st.curtb))
  | (s, l) :: rest =>
    let pr := consoleLine st s l
    pr.2 ++ consoleGo pr.1 rest

/-- `RenpyConsoleLexer.get_tokens_unprocessed(text)`. -/
def consoleTokens (t : Txt) : List Tk := consoleGo {} (linesOf t)

/-! ## The `RenpyBlockLexer` rule table -/

/-- `# *region\b` — `Block.Start`. -/
def sRegion (t : Txt) (p : Nat) : Option Nat :=
  match t.drop p with
  | '#' :: _ =>
    let s := runLenAt (fun c => c = ' ') t (p + 1)
    if litAt t (p + 1 + s) "region".data && bAt t (p + 1 + s + 6) then
      some (p + 1 + s + 6)
    else none
  | _ => none

/-- `# *endregion\b` — `Block.End`. -/
def sEndregion (t : Txt) (p : Nat) : Option Nat :=
  match t.drop p with
  | '#' :: _ =>
    let s := runLenAt (fun c => c = ' ') t (p + 1)
    if litAt t (p + 1 + s) "endregion".data && bAt t (p + 1 + s + 9) then
      some (p + 1 + s + 9)
    else none
  | _ => none

/-- The `root` state of `RenpyBlockLexer` (its only state). -/
def blockRules : List Rule :=
  [mk1 sIdent .name .stay,
   mk1 (plainWords blockW1) .blockStart .stay,
   mk1 sRegion .blockStart .stay,
   mk1 sEndregion .blockEnd .stay,
   mk1 (plainWords blockW2) .blockEnd .stay]

/-- The compiled rule table of `RenpyBlockLexer`. -/
def blockTbl : SName → List Rule
  | .root => blockRules
  | _ => []

/-- `RenpyBlockLexer.get_tokens_unprocessed(text)`. -/
def blockTokens (t : Txt) : List Tk :=
  runFrom blockTbl .root t (2 * t.length + 2) [.root] 0

/-- Concatenation of the `text` fields of a token stream, in emission
order (the round-trip reading of a stream). -/
def tokConcat (l : List Tk) : Txt := (l.map fun tok => tok.2.2).flatten

/-- Adjacent-token contiguity: each token starts where the previous one
ends. -/
def contigB : List Tk → Bool
  | [] => true
  | [_] => true
  | a :: b :: rest => decide (b.1 = a.1 + a.2.2.length) && contigB (b :: rest)

/-! ## Basic lemmas about the scanning helpers -/

theorem getD_drop_add (l : List Char) (p j : Nat) (d : Char) :
    (l.drop p).getD j d = l.getD (p + j) d := by
  induction l generalizing p with
  | nil => simp
  | cons a l ih =>
    cases p with
    | zero => simp
    | succ p =>
      rw [List.drop_succ_cons, ih p, Nat.succ_add]
      simp

theorem getD_take_lt (l : List Char) (n j : Nat) (d : Char) (h : j < n) :
    (l.take n).getD j d = l.getD j d := by
  induction l generalizing n j with
  | nil => simp
  | cons a l ih =>
    cases n with
    | zero => omega
    | succ n =>
      cases j with
      | zero => simp
      | succ j =>
        simp only [List.take_succ_cons, List.getD_cons_succ]
        exact ih n j (by omega)

theorem litAt_le {t : Txt} {p : Nat} {w : Txt} (h : litAt t p w = true) (hw : w ≠ []) :
    p + w.length ≤ t.length := by
  have h' : (t.drop p).take w.length = w := by simpa [litAt] using h
  have h1 : ((t.drop p).take w.length).length = w.length := by rw [h']
  have h2 : ((t.drop p).take w.length).length = min w.length (t.drop p).length :=
    List.length_take ..
  have h3 : w.length ≤ (t.drop p).length := min_eq_left_iff.mp (h1 ▸ h2).symm
  have h4 : (t.drop p).length = t.length - p := List.length_drop ..
  rcases le_or_lt p t.length with hp | hp
  · omega
  · exact absurd (List.length_eq_zero.mp (by omega)) hw

theorem litAt_getD {t : Txt} {p : Nat} {w : Txt} (h : litAt t p w = true)
    {j : Nat} (hj : j < w.length) (d : Char) : t.getD (p + j) d = w.getD j d := by
  have h' : (t.drop p).take w.length = w := by simpa [litAt] using h
  calc t.getD (p + j) d = (t.drop p).getD j d := (getD_drop_add t p j d).symm
    _ = ((t.drop p).take w.length).getD j d := (getD_take_lt _ _ _ _ hj).symm
    _ = w.getD j d := by rw [h']

theorem litAt_seg {t : Txt} {p : Nat} {w : Txt} (h : litAt t p w = true) :
    seg t p (p + w.length) = w := by
  have h' : (t.drop p).take w.length = w := by simpa [litAt] using h
  simpa [seg] using h'

theorem wsChar_not_word {c : Char} (h : wsChar c = true) : isWordChar c = false := by
  simp only [wsChar, Bool.or_eq_true, decide_eq_true_eq] at h
  rcases h with ((((h | h) | h) | h) | h) | h <;> subst h <;> decide

/-! ## Lemmas about word alternations -/

theorem wordsAt_mem {ws : List Txt} {t : Txt} {p : Nat} {w : Txt}
    (h : wordsAt ws t p = some w) : w ∈ ws ∧ okW t p w = true := by
  induction ws with
  | nil => simp [wordsAt] at h
  | cons w0 rest ih =>
    rw [wordsAt] at h
    rcases hr : wordsAt rest t p with _ | w'
    · rw [hr] at h
      by_cases hok : okW t p w0 = true
      · simp only [hok, if_true, Option.some.injEq] at h
        exact h ▸ ⟨List.mem_cons_self .., hok⟩
      · simp [hok] at h
    · rw [hr] at h
      by_cases hc : (okW t p w0 && decide (w'.length < w0.length)) = true
      · simp only [hc, if_true, Option.some.injEq] at h
        exact h ▸ ⟨List.mem_cons_self .., (Bool.and_eq_true ..|>.mp hc).1⟩
      · simp only [Bool.not_eq_true] at hc
        simp only [hc, Bool.false_eq_true, if_false, Option.some.injEq] at h
        subst h
        rcases ih hr with ⟨hm, hok⟩
        exact ⟨List.mem_cons_of_mem _ hm, hok⟩

theorem wordsAt_isSome {ws : List Txt} {t : Txt} {p : Nat} {w : Txt}
    (hw : w ∈ ws) (hok : okW t p w = true) : (wordsAt ws t p).isSome = true := by
  induction ws with
  | nil => cases hw
  | cons w0 rest ih =>
    rw [wordsAt]
    rcases hr : wordsAt rest t p with _ | w'
    · dsimp only
      rcases List.mem_cons.mp hw with rfl | hm
      · simp [hok]
      · have := ih hm
        rw [hr] at this
        simp at this
    · dsimp only
      split <;> simp

theorem altAt_mem {ws : List Txt} {t : Txt} {p : Nat} {w : Txt}
    (h : altAt ws t p = some w) : w ∈ ws ∧ okW t p w = true := by
  induction ws with
  | nil => simp [altAt] at h
  | cons w0 rest ih =>
    rw [altAt] at h
    by_cases hok : okW t p w0 = true
    · simp only [hok, if_true, Option.some.injEq] at h
      exact h ▸ ⟨List.mem_cons_self .., hok⟩
    · simp only [Bool.not_eq_true] at hok
      simp only [hok, Bool.false_eq_true, if_false] at h
      rcases ih h with ⟨hm, hok'⟩
      exact ⟨List.mem_cons_of_mem _ hm, hok'⟩

/-- A word that matched with its trailing `\b` and ends in a word character
is followed by a non-word character (or the end of the input). -/
theorem okW_not_word_after {t : Txt} {p : Nat} {w : Txt} (h : okW t p w = true)
    (hw : w ≠ []) (hlast : isWordChar (w.getD (w.length - 1) ' ') = true) :
    isWordChar (t.getD (p + w.length) ' ') = false := by
  have hlit : litAt t p w = true := (Bool.and_eq_true ..|>.mp h).1
  have hb : bAt t (p + w.length) = true := (Bool.and_eq_true ..|>.mp h).2
  have hwlen : 0 < w.length := List.length_pos_of_ne_nil hw
  have hprev : t.getD (p + (w.length - 1)) ' ' = w.getD (w.length - 1) ' ' :=
    litAt_getD hlit (by omega) ' '
  have hL : (decide (0 < p + w.length) && wAt t (p + w.length - 1)) = true := by
    have : p + w.length - 1 = p + (w.length - 1) := by omega
    simp only [wAt, this, hprev, hlast, Bool.and_true, decide_eq_true_eq]
    · omega
  rw [bAt, hL] at hb
  rcases hR : wAt t (p + w.length) with _ | _
  · simpa [wAt] using hR
  · rw [hR] at hb
    simp at hb

/-! ## Inversion lemmas for the rule constructors and `firstRule` -/

theorem mk1_mt {f : Txt → Nat → Option Nat} {k : Tok} {sc : SChange} {t : Txt}
    {p : Nat} {m : RMatch} (h : (mk1 f k sc).mt t p = some m) :
    ∃ e, f t p = some e ∧ m.toks = [(p, k, seg t p e)] ∧ m.stop = e := by
  simp only [mk1] at h
  rcases hf : f t p with _ | e
  · rw [hf] at h
    cases h
  · rw [hf] at h
    dsimp only at h
    cases h
    exact ⟨e, rfl, rfl, rfl⟩

theorem mkG_mt {g : Txt → Nat → Option (List Tk × Nat)} {sc : SChange} {t : Txt}
    {p : Nat} {m : RMatch} (h : (mkG g sc).mt t p = some m) :
    g t p = some (m.toks, m.stop) := by
  simp only [mkG] at h
  rcases hg : g t p with _ | pr
  · rw [hg] at h; cases h
  · rw [hg] at h
    simp only [Option.map_some', Option.some.injEq] at h
    subst h
    simp

theorem mkDefault_mt {sc : SChange} {t : Txt} {p : Nat} {m : RMatch}
    (h : (mkDefault sc).mt t p = some m) : m.toks = [] ∧ m.stop = p := by
  unfold mkDefault at h
  cases h
  exact ⟨rfl, rfl⟩

theorem gtoks_sub {l : List Tk} {tok : Tk} (h : tok ∈ gtoks l) : tok ∈ l :=
  (List.mem_filter.mp h).1

theorem firstRule_mem {rs : List Rule} {t : Txt} {p : Nat} {m : RMatch}
    {sc : SChange} (h : firstRule rs t p = some (m, sc)) :
    ∃ r ∈ rs, r.mt t p = some m ∧ r.sc = sc := by
  induction rs with
  | nil => simp [firstRule] at h
  | cons r rest ih =>
    rw [firstRule] at h
    rcases hr : r.mt t p with _ | m0
    · rw [hr] at h
      rcases ih h with ⟨r', hmem, hm, hsc⟩
      exact ⟨r', List.mem_cons_of_mem _ hmem, hm, hsc⟩
    · rw [hr] at h
      cases h
      exact ⟨r, List.mem_cons_self .., hr, rfl⟩

theorem firstRule_none {rs : List Rule} {t : Txt} {p : Nat}
    (h : firstRule rs t p = none) : ∀ r ∈ rs, r.mt t p = none := by
  induction rs with
  | nil => intro r hr; cases hr
  | cons r rest ih =>
    rw [firstRule] at h
    rcases hr : r.mt t p with _ | m0
    · rw [hr] at h
      intro r' hr'
      rcases List.mem_cons.mp hr' with rfl | hmem
      · exact hr
      · exact ih h r' hmem
    · rw [hr] at h; cases h

theorem firstRule_append {xs ys : List Rule} {t : Txt} {p : Nat} :
    firstRule (xs ++ ys) t p =
      match firstRule xs t p with
      | some v => some v
      | none => firstRule ys t p := by
  induction xs with
  | nil => simp [firstRule]
  | cons r rest ih =>
    rw [List.cons_append, firstRule, firstRule]
    rcases hr : r.mt t p with _ | m0 <;> simp [ih]

/-! ## Generic soundness of the executor

If every token selected by `firstRule` in any state satisfies `P`, and the
recovery tokens of the no-match branch satisfy `P`, then every token the
executor emits satisfies `P`. -/

theorem runFrom_sound (tbl : SName → List Rule) (rootS : SName) (t : Txt)
    (P : Tk → Prop)
    (hsel : ∀ s m sc p, firstRule (tbl s) t p = some (m, sc) → ∀ tok ∈ m.toks, P tok)
    (herr : ∀ p c, P (p, Tok.error, [c]))
    (hnl : ∀ p, P (p, Tok.text, ['\n'])) :
    ∀ fuel stack p tok, tok ∈ runFrom tbl rootS t fuel stack p → P tok := by
  intro fuel
  induction fuel with
  | zero => intro stack p tok h; simp [runFrom] at h
  | succ n ih =>
    intro stack p tok h
    rw [runFrom] at h
    by_cases hp : p < t.length
    · rw [dif_pos hp] at h
      rcases hm : firstRule (tbl (stack.headD rootS)) t p with _ | ⟨m, sc⟩
      · rw [hm] at h
        dsimp only at h
        split at h
        · rcases List.mem_cons.mp h with rfl | hmem
          · exact hnl p
          · exact ih _ _ _ hmem
        · rcases List.mem_cons.mp h with rfl | hmem
          · exact herr p _
          · exact ih _ _ _ hmem
      · rw [hm] at h
        dsimp only at h
        rcases List.mem_append.mp h with hmem | hmem
        · exact hsel _ _ _ _ hm tok hmem
        · exact ih _ _ _ hmem
    · rw [dif_neg hp] at h
      cases h

/-! ## Master per-token property for the `RenpyLexer` table

`QmR` packages the two universal claims about `RenpyLexer` tokens: a token
classified `Keyword`/`Renpy.Reserved`/`Renpy.Declaration` is followed by a
non-identifier character (or the end of input), and no token ever has kind
`Renpy.Label.Reserved`. -/

def QmR (t : Txt) (tok : Tk) : Prop :=
  (tok.2.1 = Tok.keyword ∨ tok.2.1 = Tok.renpyReserved ∨ tok.2.1 = Tok.renpyDeclaration →
    isWordChar (t.getD (tok.1 + tok.2.2.length) ' ') = false) ∧
  tok.2.1 ≠ Tok.renpyLabelReserved

theorem QmR_irrel {t : Txt} {tok : Tk} (h1 : tok.2.1 ≠ Tok.keyword)
    (h2 : tok.2.1 ≠ Tok.renpyReserved) (h3 : tok.2.1 ≠ Tok.renpyDeclaration)
    (h4 : tok.2.1 ≠ Tok.renpyLabelReserved) : QmR t tok := by
  refine ⟨fun hk => ?_, h4⟩
  rcases hk with hk | hk | hk
  · exact absurd hk h1
  · exact absurd hk h2
  · exact absurd hk h3

/-- A rule is `QmR`-sound on `t` when every token it can emit satisfies
`QmR t`. -/
def ROk (t : Txt) (P : Tk → Prop) (r : Rule) : Prop :=
  ∀ p m, r.mt t p = some m → ∀ tok ∈ m.toks, P tok

theorem ROk_mk1_irrel {t : Txt} {f : Txt → Nat → Option Nat} {k : Tok} {sc : SChange}
    (h1 : k ≠ Tok.keyword) (h2 : k ≠ Tok.renpyReserved) (h3 : k ≠ Tok.renpyDeclaration)
    (h4 : k ≠ Tok.renpyLabelReserved) : ROk t (QmR t) (mk1 f k sc) := by
  intro p m hm tok htok
  rcases mk1_mt hm with ⟨e, _, htoks, _⟩
  rw [htoks] at htok
  rcases List.mem_singleton.mp htok with rfl
  exact QmR_irrel h1 h2 h3 h4

theorem ROk_mkDefault {t : Txt} {sc : SChange} {P : Tk → Prop} :
    ROk t P (mkDefault sc) := by
  intro p m hm tok htok
  rcases mkDefault_mt hm with ⟨htoks, _⟩
  rw [htoks] at htok
  cases htok

/-- A `words(..., suffix=r'\b')` rule over a list of words ending in word
characters only emits tokens whose text is the matched word, followed by a
non-word character. -/
theorem ROk_words_bd {t : Txt} {ws : List Txt} {k : Tok} {sc : SChange}
    (hws : ∀ w ∈ ws, w ≠ [] ∧ isWordChar (w.getD (w.length - 1) ' ') = true)
    (h4 : k ≠ Tok.renpyLabelReserved) : ROk t (QmR t) (mk1 (plainWords ws) k sc) := by
  intro p m hm tok htok
  rcases mk1_mt hm with ⟨e, hf, htoks, _⟩
  rw [htoks] at htok
  rcases List.mem_singleton.mp htok with rfl
  rcases hwa : wordsAt ws t p with _ | w
  · rw [plainWords, hwa] at hf; cases hf
  · rw [plainWords, hwa] at hf
    simp only [Option.map_some', Option.some.injEq] at hf
    subst hf
    rcases wordsAt_mem hwa with ⟨hmem, hok⟩
    have hseg : seg t p (p + w.length) = w :=
      litAt_seg (Bool.and_eq_true ..|>.mp hok).1
    refine ⟨fun _ => ?_, h4⟩
    show isWordChar (t.getD (p + (seg t p (p + w.length)).length) ' ') = false
    rw [hseg]
    exact okW_not_word_after hok (hws w hmem).1 (hws w hmem).2

/-- A nonzero `(?:\s|\\\s)+` run starts with a non-word character. -/
theorem bsWsUnits_pos {l : Txt} (h : bsWsUnits l ≠ 0) :
    ∃ c cs, l = c :: cs ∧ isWordChar c = false := by
  cases l with
  | nil => simp [bsWsUnits] at h
  | cons c cs =>
    by_cases hw : wsChar c = true
    · exact ⟨c, cs, rfl, wsChar_not_word hw⟩
    · by_cases hbs : c = '\\'
      · exact ⟨c, cs, rfl, by subst hbs; decide⟩
      · rw [bsWsUnits.eq_def] at h
        simp [hw, hbs] at h

/-- The `def`/`class`/`from`/`import` rules emit the keyword token followed
by mandatory (escaped) whitespace, so the keyword token's right neighbour is
never a word character. -/
theorem ROk_gKwWs {t : Txt} {w : Txt} {k : Tok} {sc : SChange}
    (hk : k = Tok.keyword ∨ k = Tok.keywordNamespace) :
    ROk t (QmR t) (mkG (gKwWs w k) sc) := by
  intro p m hm tok htok
  have hg := mkG_mt hm
  unfold gKwWs at hg
  by_cases hlit : litAt t p w = true
  · rw [if_pos hlit] at hg
    dsimp only at hg
    by_cases hn : bsWsUnits (t.drop (p + w.length)) = 0
    · rw [if_pos hn] at hg; cases hg
    · rw [if_neg hn] at hg
      injection hg with hg
      have hts : m.toks = gtoks [(p, k, w),
          (p + w.length, Tok.text,
           seg t (p + w.length) (p + w.length + bsWsUnits (t.drop (p + w.length))))] :=
        congrArg Prod.fst hg |>.symm
      rw [hts] at htok
      rcases List.mem_cons.mp (gtoks_sub htok) with rfl | htok2
      · -- the keyword token
        rcases bsWsUnits_pos hn with ⟨c, cs, hdrop, hcw⟩
        refine ⟨fun _ => ?_, by rcases hk with rfl | rfl <;> simp⟩
        show isWordChar (t.getD (p + w.length) ' ') = false
        have : t.getD (p + w.length) ' ' = c := by
          have h0 := getD_drop_add t (p + w.length) 0 ' '
          rw [hdrop] at h0
          simpa using h0.symm
        rw [this]
        exact hcw
      · rcases List.mem_singleton.mp htok2 with rfl
        exact QmR_irrel (by simp) (by simp) (by simp) (by simp)
  · rw [if_neg hlit] at hg; cases hg

/-- All token kinds a `bygroups` matcher can emit lie in `ks`. -/
def KindsIn (ks : List Tok) (g : Txt → Nat → Option (List Tk × Nat)) : Prop :=
  ∀ t p ts e, g t p = some (ts, e) → ∀ tok ∈ ts, tok.2.1 ∈ ks

theorem gRenpyFn_kinds :
    KindsIn [Tok.renpyFunctionBuiltin, Tok.renpyFunctionArguments] gRenpyFn := by
  intro t p ts e hg tok htok
  unfold gRenpyFn at hg
  repeat' (first | split at hg | dsimp only at hg)
  all_goals first
    | exact Option.noConfusion hg
    | (simp only [Option.some.injEq, Prod.mk.injEq] at hg
       rcases hg with ⟨hts, he⟩
       subst hts
       have h2 := gtoks_sub htok
       simp only [List.mem_cons, List.not_mem_nil, or_false] at h2
       rcases h2 with rfl | rfl <;> simp)

theorem gDoc_kinds (qc : Char) :
    KindsIn [Tok.text, Tok.stringAffix, Tok.stringDoc] (gDoc qc) := by
  intro t p ts e hg tok htok
  unfold gDoc at hg
  repeat' (first | split at hg | dsimp only at hg)
  all_goals first
    | exact Option.noConfusion hg
    | (simp only [Option.some.injEq, Prod.mk.injEq] at hg
       rcases hg with ⟨hts, he⟩
       subst hts
       have h2 := gtoks_sub htok
       simp only [List.mem_cons, List.not_mem_nil, or_false] at h2
       rcases h2 with rfl | rfl | rfl <;> simp)

theorem gRawStr_kinds (quotes : Txt) (k : Tok) :
    KindsIn [Tok.stringAffix, k] (gRawStr quotes k) := by
  intro t p ts e hg tok htok
  unfold gRawStr at hg
  repeat' (first | split at hg | dsimp only at hg)
  all_goals first
    | exact Option.noConfusion hg
    | (simp only [Option.some.injEq, Prod.mk.injEq] at hg
       rcases hg with ⟨hts, he⟩
       subst hts
       have h2 := gtoks_sub htok
       simp only [List.mem_cons, List.not_mem_nil, or_false] at h2
       rcases h2 with rfl | rfl <;> simp)

theorem gOptStr_kinds (quotes : Txt) (k : Tok) :
    KindsIn [Tok.stringAffix, k] (gOptStr quotes k) := by
  intro t p ts e hg tok htok
  unfold gOptStr at hg
  repeat' (first | split at hg | dsimp only at hg)
  all_goals first
    | exact Option.noConfusion hg
    | (simp only [Option.some.injEq, Prod.mk.injEq] at hg
       rcases hg with ⟨hts, he⟩
       subst hts
       have h2 := gtoks_sub htok
       simp only [List.mem_cons, List.not_mem_nil, or_false] at h2
       rcases h2 with rfl | rfl <;> simp)

/-- A `bygroups` rule all of whose kinds are unrelated to the keyword claims
is `QmR`-sound. -/
theorem ROk_mkG_irrel {t : Txt} {g : Txt → Nat → Option (List Tk × Nat)}
    {sc : SChange} {ks : List Tok} (hg : KindsIn ks g)
    (hks : ∀ k ∈ ks, k ≠ Tok.keyword ∧ k ≠ Tok.renpyReserved ∧
      k ≠ Tok.renpyDeclaration ∧ k ≠ Tok.renpyLabelReserved) :
    ROk t (QmR t) (mkG g sc) := by
  intro p m hm tok htok
  have hk := hg t p m.toks m.stop (mkG_mt hm) tok htok
  rcases hks _ hk with ⟨h1, h2, h3, h4⟩
  exact QmR_irrel h1 h2 h3 h4

/-! ## The three keyword word lists consist of nonempty words ending in word
characters (needed for the boundary argument). -/

theorem kwWords_wd : ∀ w ∈ kwWords, w ≠ [] ∧ isWordChar (w.getD (w.length - 1) ' ') = true := by
  decide

theorem rsvWords_wd : ∀ w ∈ rsvWords, w ≠ [] ∧ isWordChar (w.getD (w.length - 1) ' ') = true := by
  decide

theorem declWords_wd : ∀ w ∈ declWords, w ≠ [] ∧ isWordChar (w.getD (w.length - 1) ' ') = true := by
  decide

/-! ## `QmR`-soundness of every rule list of the `RenpyLexer` table -/

theorem rootA_ROk (t : Txt) : ∀ r ∈ renpyRootA, ROk t (QmR t) r := by
  intro r hr
  simp only [renpyRootA, List.mem_cons, List.not_mem_nil, or_false] at hr
  rcases hr with rfl | rfl | rfl | rfl | rfl | rfl | rfl | rfl | rfl | rfl | rfl |
    rfl | rfl | rfl | rfl | rfl | rfl | rfl | rfl
  · exact ROk_mk1_irrel (by decide) (by decide) (by decide) (by decide)
  · exact ROk_mk1_irrel (by decide) (by decide) (by decide) (by decide)
  · exact ROk_mk1_irrel (by decide) (by decide) (by decide) (by decide)
  · exact ROk_mkG_irrel gRenpyFn_kinds (by decide)
  · exact ROk_mk1_irrel (by decide) (by decide) (by decide) (by decide)
  · exact ROk_mk1_irrel (by decide) (by decide) (by decide) (by decide)
  · exact ROk_mkG_irrel (gDoc_kinds '"') (by decide)
  · exact ROk_mkG_irrel (gDoc_kinds '\'') (by decide)
  · exact ROk_mk1_irrel (by decide) (by decide) (by decide) (by decide)
  · exact ROk_mk1_irrel (by decide) (by decide) (by decide) (by decide)
  · exact ROk_mk1_irrel (by decide) (by decide) (by decide) (by decide)
  · exact ROk_mk1_irrel (by decide) (by decide) (by decide) (by decide)
  · exact ROk_mk1_irrel (by decide) (by decide) (by decide) (by decide)
  · exact ROk_mk1_irrel (by decide) (by decide) (by decide) (by decide)
  · exact ROk_mk1_irrel (by decide) (by decide) (by decide) (by decide)
  · exact ROk_mk1_irrel (by decide) (by decide) (by decide) (by decide)
  · exact ROk_words_bd kwWords_wd (by decide)
  · exact ROk_words_bd rsvWords_wd (by decide)
  · exact ROk_words_bd declWords_wd (by decide)

theorem rootB_ROk (t : Txt) : ∀ r ∈ renpyRootB, ROk t (QmR t) r := by
  intro r hr
  simp only [renpyRootB, List.mem_cons, List.not_mem_nil, or_false] at hr
  rcases hr with rfl | rfl | rfl | rfl | rfl | rfl | rfl | rfl | rfl | rfl | rfl |
    rfl | rfl | rfl | rfl | rfl | rfl | rfl | rfl | rfl | rfl | rfl | rfl | rfl |
    rfl | rfl | rfl
  · exact ROk_gKwWs (Or.inl rfl)
  · exact ROk_gKwWs (Or.inl rfl)
  · exact ROk_gKwWs (Or.inr rfl)
  · exact ROk_gKwWs (Or.inr rfl)
  · exact ROk_mk1_irrel (by decide) (by decide) (by decide) (by decide)
  · exact ROk_mk1_irrel (by decide) (by decide) (by decide) (by decide)
  · exact ROk_mk1_irrel (by decide) (by decide) (by decide) (by decide)
  · exact ROk_mk1_irrel (by decide) (by decide) (by decide) (by decide)
  · exact ROk_mk1_irrel (by decide) (by decide) (by decide) (by decide)
  · exact ROk_mk1_irrel (by decide) (by decide) (by decide) (by decide)
  · exact ROk_mkG_irrel (gRawStr_kinds _ _) (by decide)
  · exact ROk_mkG_irrel (gRawStr_kinds _ _) (by decide)
  · exact ROk_mkG_irrel (gRawStr_kinds _ _) (by decide)
  · exact ROk_mkG_irrel (gRawStr_kinds _ _) (by decide)
  · exact ROk_mkG_irrel (gOptStr_kinds _ _) (by decide)
  · exact ROk_mkG_irrel (gOptStr_kinds _ _) (by decide)
  · exact ROk_mkG_irrel (gOptStr_kinds _ _) (by decide)
  · exact ROk_mkG_irrel (gOptStr_kinds _ _) (by decide)
  · exact ROk_mk1_irrel (by decide) (by decide) (by decide) (by decide)
  · exact ROk_mk1_irrel (by decide) (by decide) (by decide) (by decide)
  · exact ROk_mk1_irrel (by decide) (by decide) (by decide) (by decide)
  · exact ROk_mk1_irrel (by decide) (by decide) (by decide) (by decide)
  · exact ROk_mk1_irrel (by decide) (by decide) (by decide) (by decide)
  · exact ROk_mk1_irrel (by decide) (by decide) (by decide) (by decide)
  · exact ROk_mk1_irrel (by decide) (by decide) (by decide) (by decide)
  · exact ROk_mk1_irrel (by decide) (by decide) (by decide) (by decide)
  · exact ROk_mk1_irrel (by decide) (by decide) (by decide) (by decide)

theorem stringsDouble_ROk (t : Txt) : ∀ r ∈ stringsDouble, ROk t (QmR t) r := by
  intro r hr
  simp only [stringsDouble, List.mem_cons, List.not_mem_nil, or_false] at hr
  rcases hr with rfl | rfl | rfl | rfl <;>
    exact ROk_mk1_irrel (by decide) (by decide) (by decide) (by decide)

theorem stringsSingle_ROk (t : Txt) : ∀ r ∈ stringsSingle, ROk t (QmR t) r := by
  intro r hr
  simp only [stringsSingle, List.mem_cons, List.not_mem_nil, or_false] at hr
  rcases hr with rfl | rfl | rfl | rfl <;>
    exact ROk_mk1_irrel (by decide) (by decide) (by decide) (by decide)

theorem ROk_append {t : Txt} {P : Tk → Prop} {xs ys : List Rule}
    (hx : ∀ r ∈ xs, ROk t P r) (hy : ∀ r ∈ ys, ROk t P r) :
    ∀ r ∈ xs ++ ys, ROk t P r := by
  intro r hr
  rcases List.mem_append.mp hr with h | h
  · exact hx r h
  · exact hy r h

theorem dqs_ROk (t : Txt) : ∀ r ∈ dqsRules, ROk t (QmR t) r := by
  refine ROk_append ?_ (stringsDouble_ROk t)
  intro r hr
  simp only [List.mem_cons, List.not_mem_nil, or_false] at hr
  rcases hr with rfl | rfl <;>
    exact ROk_mk1_irrel (by decide) (by decide) (by decide) (by decide)

theorem sqs_ROk (t : Txt) : ∀ r ∈ sqsRules, ROk t (QmR t) r := by
  refine ROk_append ?_ (stringsSingle_ROk t)
  intro r hr
  simp only [List.mem_cons, List.not_mem_nil, or_false] at hr
  rcases hr with rfl | rfl <;>
    exact ROk_mk1_irrel (by decide) (by decide) (by decide) (by decide)

theorem tdqs_ROk (t : Txt) : ∀ r ∈ tdqsRules, ROk t (QmR t) r := by
  intro r hr
  rw [tdqsRules] at hr
  rcases List.mem_cons.mp hr with rfl | hr2
  · exact ROk_mk1_irrel (by decide) (by decide) (by decide) (by decide)
  · rcases List.mem_append.mp hr2 with h | h
    · exact stringsDouble_ROk t r h
    · simp only [List.mem_singleton] at h
      subst h
      exact ROk_mk1_irrel (by decide) (by decide) (by decide) (by decide)

theorem tsqs_ROk (t : Txt) : ∀ r ∈ tsqsRules, ROk t (QmR t) r := by
  intro r hr
  rw [tsqsRules] at hr
  rcases List.mem_cons.mp hr with rfl | hr2
  · exact ROk_mk1_irrel (by decide) (by decide) (by decide) (by decide)
  · rcases List.mem_append.mp hr2 with h | h
    · exact stringsSingle_ROk t r h
    · simp only [List.mem_singleton] at h
      subst h
      exact ROk_mk1_irrel (by decide) (by decide) (by decide) (by decide)

theorem esc_ROk (t : Txt) : ∀ r ∈ escRules, ROk t (QmR t) r := by
  intro r hr
  simp only [escRules, List.mem_singleton] at hr
  subst hr
  exact ROk_mk1_irrel (by decide) (by decide) (by decide) (by decide)

theorem funcname_ROk (t : Txt) : ∀ r ∈ funcnameRules, ROk t (QmR t) r := by
  intro r hr
  simp only [funcnameRules, List.mem_cons, List.not_mem_nil, or_false] at hr
  rcases hr with rfl | rfl | rfl
  · exact ROk_mk1_irrel (by decide) (by decide) (by decide) (by decide)
  · exact ROk_mk1_irrel (by decide) (by decide) (by decide) (by decide)
  · exact ROk_mkDefault

theorem classname_ROk (t : Txt) : ∀ r ∈ classnameRules, ROk t (QmR t) r := by
  intro r hr
  simp only [classnameRules, List.mem_singleton] at hr
  subst hr
  exact ROk_mk1_irrel (by decide) (by decide) (by decide) (by decide)

theorem imp_ROk (t : Txt) : ∀ r ∈ impRules, ROk t (QmR t) r := by
  intro r hr
  simp only [impRules, List.mem_cons, List.not_mem_nil, or_false] at hr
  rcases hr with rfl | rfl | rfl | rfl | rfl
  · exact ROk_mk1_irrel (by decide) (by decide) (by decide) (by decide)
  · exact ROk_mk1_irrel (by decide) (by decide) (by decide) (by decide)
  · exact ROk_mk1_irrel (by decide) (by decide) (by decide) (by decide)
  · exact ROk_mk1_irrel (by decide) (by decide) (by decide) (by decide)
  · exact ROk_mkDefault

theorem fromimport_ROk (t : Txt) : ∀ r ∈ fromimportRules, ROk t (QmR t) r := by
  intro r hr
  simp only [fromimportRules, List.mem_cons, List.not_mem_nil, or_false] at hr
  rcases hr with rfl | rfl | rfl | rfl | rfl
  · exact ROk_mk1_irrel (by decide) (by decide) (by decide) (by decide)
  · exact ROk_mk1_irrel (by decide) (by decide) (by decide) (by decide)
  · exact ROk_mk1_irrel (by decide) (by decide) (by decide) (by decide)
  · exact ROk_mk1_irrel (by decide) (by decide) (by decide) (by decide)
  · exact ROk_mkDefault

/-! ## Shadowing of the `special_labels` rule

Whenever the `special_labels` pattern `label (start|quit|...)\b` matches, the
earlier `Renpy.Declaration` word rule (whose list contains `label`) also
matches, so under first-match semantics the `special_labels` rule can never
be selected. -/

theorem special_decl {t : Txt} {p e : Nat}
    (h : litWords ("label ".data) specialWords t p = some e) :
    ∃ e', plainWords declWords t p = some e' := by
  unfold litWords at h
  by_cases hlit : litAt t p ("label ".data) = true
  · have h6 : (t.drop p).take 6 = "label ".data := by simpa [litAt] using hlit
    have h5 : litAt t p ("label".data) = true := by
      simp only [litAt, decide_eq_true_eq]
      show (t.drop p).take ("label".data).length = "label".data
      rw [show ("label".data).length = 5 from by decide]
      calc (t.drop p).take 5 = ((t.drop p).take 6).take 5 := by
            rw [List.take_take]
            norm_num
        _ = "label".data := by rw [h6]; decide
    have hsp : t.getD (p + 5) ' ' = ' ' := by
      have := litAt_getD hlit (show 5 < ("label ".data).length from by decide) ' '
      simpa using this
    have hl : t.getD (p + 4) ' ' = 'l' := by
      have := litAt_getD hlit (show 4 < ("label ".data).length from by decide) ' '
      simpa using this
    have hb : bAt t (p + 5) = true := by
      have e1 : p + 5 - 1 = p + 4 := by omega
      have h05 : decide (0 < p + 5) = true := by simp
      rw [bAt, e1, wAt, wAt, hsp, hl, h05]
      decide
    have hok : okW t p ("label".data) = true := by
      rw [okW, show ("label".data).length = 5 from by decide, h5, hb]
      rfl
    have hmem : ("label".data) ∈ declWords := by decide
    rcases Option.isSome_iff_exists.mp (wordsAt_isSome hmem hok) with ⟨w', hw'⟩
    exact ⟨p + w'.length, by simp [plainWords, hw']⟩
  · rw [if_neg hlit] at h
    cases h

/-- Every token selected by `firstRule` from the resolved `root` state of
`RenpyLexer` satisfies `QmR`. -/
theorem renpyRoot_selQ {t : Txt} {p : Nat} {m : RMatch} {sc : SChange}
    (h : firstRule renpyRoot t p = some (m, sc)) : ∀ tok ∈ m.toks, QmR t tok := by
  rw [renpyRoot, firstRule_append] at h
  rcases hA : firstRule renpyRootA t p with _ | vA
  · rw [hA] at h
    dsimp only at h
    rw [firstRule] at h
    rcases hS : rSpecial.mt t p with _ | mS
    · rw [hS] at h
      obtain ⟨r, hr, hm, _⟩ := firstRule_mem h
      exact rootB_ROk t r hr p m hm
    · exfalso
      rcases mk1_mt hS with ⟨e, hf, _, _⟩
      rcases special_decl hf with ⟨e', hd⟩
      have h19 : r19.mt t p = none := firstRule_none hA r19 (by simp [renpyRootA])
      simp only [r19, mk1] at h19
      rw [hd] at h19
      cases h19
  · rw [hA] at h
    dsimp only at h
    cases h
    obtain ⟨r, hr, hm, _⟩ := firstRule_mem hA
    exact rootA_ROk t r hr p m hm

/-- `QmR`-soundness of rule selection in every state of the `RenpyLexer`
table. -/
theorem renpyTbl_selQ (t : Txt) : ∀ s m sc p,
    firstRule (renpyTbl s) t p = some (m, sc) → ∀ tok ∈ m.toks, QmR t tok := by
  intro s m sc p h
  cases s with
  | root => exact renpyRoot_selQ h
  | funcname =>
    obtain ⟨r, hr, hm, _⟩ := firstRule_mem h
    exact funcname_ROk t r hr p m hm
  | classname =>
    obtain ⟨r, hr, hm, _⟩ := firstRule_mem h
    exact classname_ROk t r hr p m hm
  | imp =>
    obtain ⟨r, hr, hm, _⟩ := firstRule_mem h
    exact imp_ROk t r hr p m hm
  | fromimport =>
    obtain ⟨r, hr, hm, _⟩ := firstRule_mem h
    exact fromimport_ROk t r hr p m hm
  | dqs =>
    obtain ⟨r, hr, hm, _⟩ := firstRule_mem h
    exact dqs_ROk t r hr p m hm
  | sqs =>
    obtain ⟨r, hr, hm, _⟩ := firstRule_mem h
    exact sqs_ROk t r hr p m hm
  | tdqs =>
    obtain ⟨r, hr, hm, _⟩ := firstRule_mem h
    exact tdqs_ROk t r hr p m hm
  | tsqs =>
    obtain ⟨r, hr, hm, _⟩ := firstRule_mem h
    exact tsqs_ROk t r hr p m hm
  | cdqs =>
    obtain ⟨r, hr, hm, _⟩ := firstRule_mem h
    exact ROk_append (esc_ROk t) (dqs_ROk t) r hr p m hm
  | csqs =>
    obtain ⟨r, hr, hm, _⟩ := firstRule_mem h
    exact ROk_append (esc_ROk t) (sqs_ROk t) r hr p m hm
  | ctdqs =>
    obtain ⟨r, hr, hm, _⟩ := firstRule_mem h
    exact ROk_append (esc_ROk t) (tdqs_ROk t) r hr p m hm
  | ctsqs =>
    obtain ⟨r, hr, hm, _⟩ := firstRule_mem h
    exact ROk_append (esc_ROk t) (tsqs_ROk t) r hr p m hm
  | intb =>
    rw [show renpyTbl .intb = [] from rfl, firstRule] at h
    cases h

/-- Every token an executor run over the `RenpyLexer` table emits satisfies
`QmR`: keyword-classified tokens are followed by a non-identifier character
(or the end of the input), and no token has kind `Renpy.Label.Reserved`. -/
theorem renpyRun_QmR (t : Txt) : ∀ fuel stack p tok,
    tok ∈ runFrom renpyTbl .root t fuel stack p → QmR t tok :=
  runFrom_sound renpyTbl .root t (QmR t) (renpyTbl_selQ t)
    (fun p c => QmR_irrel (by simp) (by simp) (by simp) (by simp))
    (fun p => QmR_irrel (by simp) (by simp) (by simp) (by simp))

/-! ## Master per-token property for the `RenpyBlockLexer` table -/

/-- The alphabetic keywords appearing in the two word lists of
`RenpyBlockLexer` (the non-alphabetic entries `'\n\n'` and `'# *endregion'`
excluded). -/
def blockAlpha : List Txt :=
  blockW1 ++ (["break", "continue", "return", "yield", "yield from",
               "pass"] : List String).map String.data

def QmB (tok : Tk) : Prop :=
  ((tok.2.1 = Tok.blockStart ∨ tok.2.1 = Tok.blockEnd) → tok.2.2 ∉ blockAlpha) ∧
  (tok.2.2 ∈ blockAlpha → tok.2.1 = Tok.name) ∧
  (tok.2.1 = Tok.blockStart → tok.2.2.head? = some '#')

theorem litAt_cons {t : Txt} {p : Nat} {c : Char} {w : Txt}
    (h : litAt t p (c :: w) = true) : ∃ rest, t.drop p = c :: rest := by
  simp only [litAt, decide_eq_true_eq] at h
  rcases hd : t.drop p with _ | ⟨c0, rest⟩
  · rw [hd] at h
    simp at h
  · rw [hd] at h
    simp only [List.length_cons, List.take_succ_cons, List.cons.injEq] at h
    exact ⟨rest, by rw [h.1]⟩

theorem sIdent_none {t : Txt} {p : Nat} {c : Char} {cs : Txt}
    (h : sIdent t p = none) (hd : t.drop p = c :: cs) : isIdentStart c = false := by
  unfold sIdent at h
  rw [hd] at h
  dsimp only at h
  by_cases hc : isIdentStart c = true
  · rw [if_pos hc] at h
    cases h
  · simpa using hc

/-- `seg t p e` of a text starting with `'#'` at `p` (with `p < e`) starts
with `'#'`. -/
theorem seg_head_hash {t : Txt} {p e : Nat} {rest : Txt}
    (hd : t.drop p = '#' :: rest) (he : p < e) :
    (seg t p e).head? = some '#' := by
  rw [seg, hd]
  rcases hn : e - p with _ | n
  · omega
  · simp

theorem blockAlpha_len : ∀ w ∈ blockAlpha, 2 ≤ w.length := by decide

theorem blockAlpha_no_hash : ∀ w ∈ blockAlpha, w.head? ≠ some '#' := by decide

theorem blockW1_heads : ∀ w ∈ blockW1, w ≠ [] ∧ isIdentStart (w.headD ' ') = true := by
  decide

theorem blockW2_heads : ∀ w ∈ blockW2,
    (w ≠ [] ∧ isIdentStart (w.headD ' ') = true) ∨
    w = "\n\n".data ∨ w = "# *endregion".data := by decide

/-- Turn the decidable head description into the cons form used below. -/
theorem head_cons_of {w : Txt} (h : w ≠ [] ∧ isIdentStart (w.headD ' ') = true) :
    ∃ c cs, w = c :: cs ∧ isIdentStart c = true := by
  rcases w with _ | ⟨c, cs⟩
  · exact absurd rfl h.1
  · exact ⟨c, cs, rfl, by simpa using h.2⟩

/-- Selection soundness for the single state of `RenpyBlockLexer`: the
identifier rule shadows every alphabetic word of the two word lists, so
`Block.Start`/`Block.End` tokens can only carry `# *region`-style or
blank-line texts. -/
theorem blockRoot_selQ {t : Txt} {m : RMatch} {sc : SChange} {p : Nat}
    (h : firstRule blockRules t p = some (m, sc)) : ∀ tok ∈ m.toks, QmB tok := by
  rw [blockRules, firstRule] at h
  rcases h1 : (mk1 sIdent .name .stay).mt t p with _ | m1
  case some =>
    rw [h1] at h
    cases h
    intro tok htok
    rcases mk1_mt h1 with ⟨e, _, htoks, _⟩
    rw [htoks] at htok
    rcases List.mem_singleton.mp htok with rfl
    exact ⟨by simp, fun _ => rfl, by simp⟩
  rw [h1] at h
  have hident : sIdent t p = none := by
    rcases hf : sIdent t p with _ | e
    · rfl
    · exfalso
      have : (mk1 sIdent .name .stay).mt t p = some ⟨[(p, .name, seg t p e)], e⟩ := by
        simp [mk1, hf]
      rw [this] at h1
      cases h1
  rw [firstRule] at h
  rcases h2 : (mk1 (plainWords blockW1) .blockStart .stay).mt t p with _ | m2
  case some =>
    exfalso
    rcases mk1_mt h2 with ⟨e, hf, _, _⟩
    rcases hwa : wordsAt blockW1 t p with _ | w
    · rw [plainWords, hwa] at hf; cases hf
    · rcases wordsAt_mem hwa with ⟨hmem, hok⟩
      rcases head_cons_of (blockW1_heads w hmem) with ⟨c, cs, rfl, hcid⟩
      rcases litAt_cons (Bool.and_eq_true ..|>.mp hok).1 with ⟨rest, hd⟩
      rw [sIdent_none hident hd] at hcid
      cases hcid
  rw [h2, firstRule] at h
  rcases h3 : (mk1 sRegion .blockStart .stay).mt t p with _ | m3
  case some =>
    rw [h3] at h
    cases h
    intro tok htok
    rcases mk1_mt h3 with ⟨e, hf, htoks, _⟩
    rw [htoks] at htok
    rcases List.mem_singleton.mp htok with rfl
    have hhash : (seg t p e).head? = some '#' := by
      unfold sRegion at hf
      rcases hd : t.drop p with _ | ⟨c0, rest⟩
      · rw [hd] at hf; cases hf
      · rw [hd] at hf
        dsimp only at hf
        rcases hc0 : c0 with _
        split at hf
        · split at hf
          · rename_i hcc _
            cases hf
            exact seg_head_hash (hcc ▸ hd) (by omega)
          · cases hf
        · cases hf
    refine ⟨fun _ hmem => ?_, fun hmem => ?_, fun _ => hhash⟩
    · exact blockAlpha_no_hash _ hmem (by simp [hhash])
    · exact absurd (blockAlpha_no_hash _ hmem) (by simp [hhash])
  rw [h3, firstRule] at h
  rcases h4 : (mk1 sEndregion .blockEnd .stay).mt t p with _ | m4
  case some =>
    rw [h4] at h
    cases h
    intro tok htok
    rcases mk1_mt h4 with ⟨e, hf, htoks, _⟩
    rw [htoks] at htok
    rcases List.mem_singleton.mp htok with rfl
    have hhash : (seg t p e).head? = some '#' := by
      unfold sEndregion at hf
      rcases hd : t.drop p with _ | ⟨c0, rest⟩
      · rw [hd] at hf; cases hf
      · rw [hd] at hf
        dsimp only at hf
        split at hf
        · split at hf
          · rename_i hcc _
            cases hf
            exact seg_head_hash (hcc ▸ hd) (by omega)
          · cases hf
        · cases hf
    refine ⟨fun _ hmem => ?_, fun hmem => ?_, by simp⟩
    · exact blockAlpha_no_hash _ hmem (by simp [hhash])
    · exact absurd (blockAlpha_no_hash _ hmem) (by simp [hhash])
  rw [h4, firstRule] at h
  rcases h5 : (mk1 (plainWords blockW2) .blockEnd .stay).mt t p with _ | m5
  case none =>
    rw [h5] at h
    rw [show firstRule [] t p = none from rfl] at h
    cases h
  rw [h5] at h
  cases h
  intro tok htok
  rcases mk1_mt h5 with ⟨e, hf, htoks, _⟩
  rcases hwa : wordsAt blockW2 t p with _ | w
  · rw [plainWords, hwa] at hf; cases hf
  · rw [plainWords, hwa] at hf
    simp only [Option.map_some', Option.some.injEq] at hf
    subst hf
    rcases wordsAt_mem hwa with ⟨hmem, hok⟩
    have hseg : seg t p (p + w.length) = w :=
      litAt_seg (Bool.and_eq_true ..|>.mp hok).1
    rw [htoks, hseg] at htok
    rcases List.mem_singleton.mp htok with rfl
    rcases blockW2_heads w hmem with hh | hw | hw
    · exfalso
      rcases head_cons_of hh with ⟨c, cs, hwc, hcid⟩
      subst hwc
      rcases litAt_cons (Bool.and_eq_true ..|>.mp hok).1 with ⟨rest, hd⟩
      rw [sIdent_none hident hd] at hcid
      cases hcid
    · subst hw
      refine ⟨fun _ => ?_, fun hmem2 => ?_, by simp⟩
      · dsimp only
        decide
      · dsimp only at hmem2
        exact absurd hmem2 (by decide)
    · subst hw
      refine ⟨fun _ => ?_, fun hmem2 => ?_, by simp⟩
      · dsimp only
        decide
      · dsimp only at hmem2
        exact absurd hmem2 (by decide)

/-- Selection soundness over the whole (one-state) table. -/
theorem blockRules_selQ (t : Txt) : ∀ s m sc p,
    firstRule (blockTbl s) t p = some (m, sc) → ∀ tok ∈ m.toks, QmB tok := by
  intro s m sc p h
  cases s
  case root => exact blockRoot_selQ h
  all_goals exact Option.noConfusion h

/-- Every token of a `RenpyBlockLexer` run satisfies `QmB`. -/
theorem blockRun_QmB (t : Txt) : ∀ fuel stack p tok,
    tok ∈ runFrom blockTbl .root t fuel stack p → QmB tok := by
  refine runFrom_sound blockTbl .root t QmB (blockRules_selQ t) (fun p c => ?_) (fun p => ?_)
  · refine ⟨by simp, fun hmem => ?_, by simp⟩
    exact absurd (blockAlpha_len _ hmem) (by simp)
  · refine ⟨by simp, fun hmem => ?_, by simp⟩
    exact absurd (blockAlpha_len _ hmem) (by simp)

/-! # Claim theorems -/

/-- C1: the round-trip invariant fails on the code.  On the input
`renpy.x(a)` the root rule `((renpy|im)\.[a-zA-Z_]+)\(([a-zA-Z_ ,=]+)\)` is
selected, but its `bygroups` action lists only two kinds for three capture
groups: the emitted tokens are group 1 (`renpy.x`) and the *nested* group 2
(`renpy`), both at offset 0, and the substring `(a)` is covered by no token,
so concatenating the token texts yields `renpy.xrenpy`, not the input. -/
theorem c1_theorem :
    renpyTokens "renpy.x(a)".data =
      [(0, Tok.renpyFunctionBuiltin, "renpy.x".data),
       (0, Tok.renpyFunctionArguments, "renpy".data)] ∧
    tokConcat (renpyTokens "renpy.x(a)".data) ≠ "renpy.x(a)".data := by decide

/-- C2: contiguity of consecutive tokens fails on the code.  On the input
`renpy.x(a)` the two emitted tokens both start at offset 0, so the second
token's offset is not the first token's offset plus its length, and the
match end (10) leaves a gap after the last token. -/
theorem c2_theorem :
    contigB (renpyTokens "renpy.x(a)".data) = false ∧
    (renpyTokens "renpy.x(a)".data).map (fun tok => (tok.1, tok.2.2.length)) =
      [(0, 7), (0, 5)] := by decide

/-- C3 counterexample: an unmatched newline does *not* produce an `Error`
token.  Tokenizing `"a<newline>b` enters the single-line double-quoted
string state `dqs`, where no rule matches the newline; the executor resets
to the root state and emits the newline as a `Text` token, so the output
contains no `Error` token at all. -/
theorem c3_counterexample :
    renpyTokens "\"a\nb".data =
      [(0, .stringDouble, ['"']), (1, .stringDouble, ['a']),
       (2, .text, ['\n']), (3, .name, ['b'])] ∧
    (renpyTokens "\"a\nb".data).all (fun tok => !decide (tok.2.1 = Tok.error)) = true := by
  decide

/-- C3 (amended): at a cursor position where no rule of the current state
matches, the executor emits exactly one `Error` token covering one character
and advances by one — *unless* the unmatched character is a newline, in
which case it resets the state stack to the root state and emits the newline
as a one-character `Text` token, again advancing by one; in both cases
tokenization continues without raising. -/
theorem c3_theorem (tbl : SName → List Rule) (rootS : SName) (t : Txt)
    (stack : List SName) (p fuel : Nat) (h : p < t.length)
    (hnone : firstRule (tbl (stack.headD rootS)) t p = none) :
    (t.get ⟨p, h⟩ ≠ '\n' →
      runFrom tbl rootS t (fuel + 1) stack p =
        (p, Tok.error, [t.get ⟨p, h⟩]) :: runFrom tbl rootS t fuel stack (p + 1)) ∧
    (t.get ⟨p, h⟩ = '\n' →
      runFrom tbl rootS t (fuel + 1) stack p =
        (p, Tok.text, ['\n']) :: runFrom tbl rootS t fuel [rootS] (p + 1)) := by
  constructor <;> intro hc
  · rw [runFrom, dif_pos h, hnone]
    dsimp only
    rw [if_neg hc]
  · rw [runFrom, dif_pos h, hnone]
    dsimp only
    rw [if_pos hc]

/-- Witness for C3: in the root state of `RenpyLexer` no rule matches `?`,
so one `Error` token of length 1 is emitted and scanning resumes. -/
theorem c3_witness :
    (firstRule (renpyTbl (([SName.root]).headD SName.root)) "?x".data 0).isNone = true ∧
    runFrom renpyTbl SName.root "?x".data 4 [SName.root] 0 =
      (0, Tok.error, ['?']) :: runFrom renpyTbl SName.root "?x".data 3 [SName.root] 1 := by
  refine ⟨by decide, ?_⟩
  exact (c3_theorem renpyTbl SName.root "?x".data [SName.root] 0 3 (by decide)
    (Option.isNone_iff_eq_none.mp (by decide))).1 (by decide)

/-- C4: the console dispatcher does not hand the captured block to the
traceback sub-lexer at every closing line.  When a second traceback header
arrives while a block is open, the code overwrites the accumulation buffer
(`curtb = line`) instead of flushing it: on the input below, no emitted
token covers the first header (offsets 0–34), whose text is silently lost —
the first token of the whole output starts at offset 35. -/
theorem c4_theorem :
    consoleTokens
        ("Traceback (most recent call last):\nTraceback (most recent call last):\nX\n").data =
      [(35, Tok.genericTraceback, "Traceback (most recent call last):\n".data),
       (70, Tok.genericError, ['X']), (71, Tok.text, ['\n'])] ∧
    (consoleTokens
        ("Traceback (most recent call last):\nTraceback (most recent call last):\nX\n").data).all
      (fun tok => decide (35 ≤ tok.1)) = true := by decide

/-- C5: on the two prompt lines `>>> x = 1` and `>>> print(x)` the merged
console stream contains exactly two `Generic.Prompt` tokens, each with text
`>>> `, the first preceding the tokens of `x = 1` and the second preceding
the tokens of `print(x)`, in original line order. -/
theorem c5_theorem :
    consoleTokens ">>> x = 1\n>>> print(x)\n".data =
      [(0, Tok.genericPrompt, ">>> ".data),
       (4, Tok.name, ['x']), (5, Tok.text, [' ']), (6, Tok.operator, ['=']),
       (7, Tok.text, [' ']), (8, Tok.numberInteger, ['1']), (9, Tok.text, ['\n']),
       (10, Tok.genericPrompt, ">>> ".data),
       (14, Tok.keyword, "print".data), (19, Tok.punctuation, ['(']),
       (20, Tok.name, ['x']), (21, Tok.punctuation, [')']), (22, Tok.text, ['\n'])] ∧
    (consoleTokens ">>> x = 1\n>>> print(x)\n".data).filter
        (fun tok => tok.2.1 = Tok.genericPrompt) =
      [(0, Tok.genericPrompt, ">>> ".data), (10, Tok.genericPrompt, ">>> ".data)] := by
  decide

/-- C6: on the three-line traceback block the traceback lexer emits a
`Generic.Traceback` token for the header line, structured tokens for the
`File` line (the quoted path as `Name.Builtin`, the line number as a
`Number`, the `<module>` name as a `Name`), a `Generic.Error`/`Name` pair
for the final `ZeroDivisionError: division by zero` line — and pops back to
the root state, so a further plain line is emitted as ordinary non-traceback
output (`Other`). -/
theorem c6_theorem :
    tbTokens ("Traceback (most recent call last):\n  File \"a.rpy\", line 3, in <module>\nZeroDivisionError: division by zero\n").data =
      [(0, Tok.genericTraceback, "Traceback (most recent call last):\n".data),
       (35, Tok.text, "  File ".data), (42, Tok.nameBuiltin, "\"a.rpy\"".data),
       (49, Tok.text, ", line ".data), (56, Tok.number, ['3']),
       (57, Tok.text, ", in ".data), (62, Tok.name, "<module>".data),
       (70, Tok.text, ['\n']),
       (71, Tok.genericError, "ZeroDivisionError".data), (88, Tok.text, ": ".data),
       (90, Tok.name, "division by zero".data), (106, Tok.text, ['\n'])] ∧
    tbTokens ("Traceback (most recent call last):\n  File \"a.rpy\", line 3, in <module>\nZeroDivisionError: division by zero\nhello\n").data =
      [(0, Tok.genericTraceback, "Traceback (most recent call last):\n".data),
       (35, Tok.text, "  File ".data), (42, Tok.nameBuiltin, "\"a.rpy\"".data),
       (49, Tok.text, ", line ".data), (56, Tok.number, ['3']),
       (57, Tok.text, ", in ".data), (62, Tok.name, "<module>".data),
       (70, Tok.text, ['\n']),
       (71, Tok.genericError, "ZeroDivisionError".data), (88, Tok.text, ": ".data),
       (90, Tok.name, "division by zero".data), (106, Tok.text, ['\n']),
       (107, Tok.other, "hello\n".data)] := by decide

/-- C7 counterexample: keyword tokens are not guaranteed to be *surrounded*
by non-identifier characters.  On the input `3if` the lexer emits the
integer `3` and then a `Keyword` token for `if` at offset 1, although the
character immediately before it (`3`) is an identifier character — the
keyword rules only anchor a word boundary on the right. -/
theorem c7_counterexample :
    renpyTokens "3if".data =
      [(0, Tok.numberInteger, ['3']), (1, Tok.keyword, "if".data)] ∧
    isWordChar (("3if".data).getD 0 ' ') = true := by decide

/-- C7 (amended): every `Keyword`/`Renpy.Reserved`/`Renpy.Declaration` token
emitted by `RenpyLexer` is followed by a non-identifier character or the end
of the input (a right word boundary; the left context is not tested), and
tokenizing `ifx = 1` does not classify the prefix `if` as any token. -/
theorem c7_theorem :
    (∀ (t : Txt) (fuel : Nat) (stack : List SName) (p : Nat),
      ∀ tok ∈ runFrom renpyTbl .root t fuel stack p,
        (tok.2.1 = Tok.keyword ∨ tok.2.1 = Tok.renpyReserved ∨
            tok.2.1 = Tok.renpyDeclaration) →
          isWordChar (t.getD (tok.1 + tok.2.2.length) ' ') = false) ∧
    (∀ tok ∈ renpyTokens "ifx = 1".data, tok.2.2 ≠ "if".data) := by
  constructor
  · intro t fuel stack p tok htok
    exact (renpyRun_QmR t fuel stack p tok htok).1
  · decide

/-- Witness for C7: the keyword token of `3if` satisfies the (right)
boundary property. -/
theorem c7_witness :
    (1, Tok.keyword, "if".data) ∈
      runFrom renpyTbl .root "3if".data (2 * ("3if".data).length + 2) [SName.root] 0 ∧
    isWordChar (("3if".data).getD (1 + ("if".data).length) ' ') = false := by
  refine ⟨by decide, ?_⟩
  exact c7_theorem.1 ("3if".data) (2 * ("3if".data).length + 2) [SName.root] 0
    (1, Tok.keyword, "if".data) (by decide) (Or.inl rfl)

/-- C8 counterexample: no single token spans the literal `"Hello"`.  The
string is emitted as three consecutive `String.Double` tokens (opening
quote, contents, closing quote), so the claim's "a double-quoted string
token spanning `"Hello"`" fails as stated. -/
theorem c8_counterexample :
    (renpyTokens "label start:\n    \"Hello\"\n".data).filter
      (fun tok => decide (tok.2.2 = "\"Hello\"".data)) = [] := by decide

/-- C8 (amended): tokenizing `label start:\n    "Hello"\n` yields a
`Renpy.Declaration` token for `label`, a `Name` token for `start`,
`Punctuation` for `:`, and on the second line three consecutive
`String.Double` tokens (`"`, `Hello`, `"`) jointly spanning the literal
`"Hello"`. -/
theorem c8_theorem :
    renpyTokens "label start:\n    \"Hello\"\n".data =
      [(0, Tok.renpyDeclaration, "label".data), (5, Tok.text, [' ']),
       (6, Tok.name, "start".data), (11, Tok.punctuation, [':']),
       (12, Tok.text, ['\n']), (13, Tok.text, "    ".data),
       (17, Tok.stringDouble, ['"']), (18, Tok.stringDouble, "Hello".data),
       (23, Tok.stringDouble, ['"']), (24, Tok.text, ['\n'])] := by decide

/-- C9: `RenpyLexer` never emits a `Renpy.Label.Reserved` token: the
`keywords` rules are included before `special_labels` in the root state, and
wherever the `special_labels` pattern `label (start|...)\b` matches, the
earlier `Renpy.Declaration` word rule (whose list contains `label`) also
matches, so under first-match semantics `special_labels` is unreachable
(second conjunct: the shadowing itself). -/
theorem c9_theorem :
    (∀ (t : Txt) (fuel : Nat) (stack : List SName) (p : Nat),
      ∀ tok ∈ runFrom renpyTbl .root t fuel stack p,
        tok.2.1 ≠ Tok.renpyLabelReserved) ∧
    (∀ (t : Txt) (p e : Nat), litWords ("label ".data) specialWords t p = some e →
      ∃ e', plainWords declWords t p = some e') := by
  constructor
  · intro t fuel stack p tok htok
    exact (renpyRun_QmR t fuel stack p tok htok).2
  · intro t p e h
    exact special_decl h

/-- Witness for C9 at the input `label start`: the `label` token is a
`Renpy.Declaration`, not a `Renpy.Label.Reserved`. -/
theorem c9_witness :
    (0, Tok.renpyDeclaration, "label".data) ∈
      runFrom renpyTbl .root "label start".data
        (2 * ("label start".data).length + 2) [SName.root] 0 ∧
    (0, Tok.renpyDeclaration, "label".data).2.1 ≠ Tok.renpyLabelReserved := by
  refine ⟨by decide, ?_⟩
  exact c9_theorem.1 ("label start".data) (2 * ("label start".data).length + 2)
    [SName.root] 0 (0, Tok.renpyDeclaration, "label".data) (by decide)

/-- C10: `RenpyBlockLexer` never emits `Block.Start` or `Block.End` for the
alphabetic keywords of its word lists: the leading identifier rule wins at
any position where such a word occurs, so those words are always emitted as
`Name` tokens, and a `Block.Start` token can only come from the
`# *region` comment rule (its text starts with `#`). -/
theorem c10_theorem :
    ∀ (t : Txt) (fuel : Nat) (stack : List SName) (p : Nat),
      ∀ tok ∈ runFrom blockTbl .root t fuel stack p,
        ((tok.2.1 = Tok.blockStart ∨ tok.2.1 = Tok.blockEnd) →
          tok.2.2 ∉ blockAlpha) ∧
        (tok.2.2 ∈ blockAlpha → tok.2.1 = Tok.name) ∧
        (tok.2.1 = Tok.blockStart → tok.2.2.head? = some '#') := by
  intro t fuel stack p tok htok
  exact blockRun_QmB t fuel stack p tok htok

/-- Witness for C10: on `# region` the block lexer emits a `Block.Start`
token whose text is not one of the alphabetic keywords. -/
theorem c10_witness :
    (0, Tok.blockStart, "# region".data) ∈
      runFrom blockTbl .root "# region".data
        (2 * ("# region".data).length + 2) [SName.root] 0 ∧
    "# region".data ∉ blockAlpha := by
  refine ⟨by decide, ?_⟩
  exact (c10_theorem ("# region".data) (2 * ("# region".data).length + 2)
    [SName.root] 0 (0, Tok.blockStart, "# region".data) (by decide)).1 (Or.inl rfl)
